import Mathlib

set_option autoImplicit false

/-!
# xplit: monitor discovery, split geometry and virtual-monitor commands

A shallow embedding of `xplit.go`.

* Go `int` is a 64-bit two's-complement integer: values are `Int`, and every
  arithmetic operation reduces its result with `wrap64`.
* Go `string` is `String`; the text functions work on the list of characters.
* A runtime panic (index out of range, integer division by zero) is `none`.
* The external world is a `Shell`: the outcome of `sh -c cmd`, given the
  commands that were run before it.  `RunCommand` records every command it runs.
-/

namespace Xplit

/-! ## Go integers -/

/-- Two's-complement reduction of an integer to the range of a Go `int`. -/
def wrap64 (x : Int) : Int := (x + 2 ^ 63) % 2 ^ 64 - 2 ^ 63

/-- The values a Go `int` can hold. -/
def isInt64 (x : Int) : Prop := -(2 ^ 63) ≤ x ∧ x < 2 ^ 63

instance (x : Int) : Decidable (isInt64 x) := by
  unfold isInt64; infer_instance

/-- Go `a + b` on `int`. -/
def goAdd (a b : Int) : Int := wrap64 (a + b)

/-- Go `a - b` on `int`. -/
def goSub (a b : Int) : Int := wrap64 (a - b)

/-- Go `a * b` on `int`. -/
def goMul (a b : Int) : Int := wrap64 (a * b)

/-- Go `a / b` on `int`: truncated division; a zero divisor panics. -/
def goDiv (a b : Int) : Option Int :=
  if b = 0 then none else some (wrap64 (Int.tdiv a b))

/-! ## Go library functions on strings -/

/-- Go `unicode.IsSpace`. -/
def isSpace (c : Char) : Bool :=
  let n := c.toNat
  n == 0x20 || (0x09 ≤ n && n ≤ 0x0D) || n == 0x85 || n == 0xA0 || n == 0x1680 ||
    (0x2000 ≤ n && n ≤ 0x200A) || n == 0x2028 || n == 0x2029 || n == 0x202F ||
    n == 0x205F || n == 0x3000

/-- The regular-expression class `\d`: an ASCII decimal digit. -/
def isDigit (c : Char) : Bool := 48 ≤ c.toNat && c.toNat ≤ 57

/-- The regular-expression class `.`: any character but a line feed. -/
def notNewline (c : Char) : Bool := c.toNat != 10

/-- Scanner of `strings.Fields`: `cur` is the field being read. -/
def fieldsAux : List Char → List Char → List (List Char)
  | [], cur => if cur.isEmpty then [] else [cur]
  | c :: cs, cur =>
    if isSpace c then
      if cur.isEmpty then fieldsAux cs [] else cur :: fieldsAux cs []
    else fieldsAux cs (cur ++ [c])

/-- Go `strings.Fields`: the maximal runs of non-space characters. -/
def Fields (s : String) : List String := (fieldsAux s.data []).map String.mk

/-- Whether the characters `s` start with the characters `p`. -/
def startsWith : List Char → List Char → Bool
  | _, [] => true
  | [], _ :: _ => false
  | c :: cs, p :: ps => c == p && startsWith cs ps

/-- Whether `sub` occurs in `s` as a contiguous block. -/
def containsChars : List Char → List Char → Bool
  | [], sub => startsWith [] sub
  | c :: cs, sub => startsWith (c :: cs) sub || containsChars cs sub

/-- Go `strings.Contains`. -/
def Contains (s substr : String) : Bool := containsChars s.data substr.data

/-- Go `strings.HasPrefix`. -/
def HasPrefix (s p : String) : Bool := startsWith s.data p.data

/-- Splitting of a character list at every occurrence of `sep`. -/
def splitChars (sep : Char) : List Char → List (List Char)
  | [] => [[]]
  | c :: cs =>
    if c = sep then [] :: splitChars sep cs
    else
      match splitChars sep cs with
      | [] => [[c]]
      | l :: ls => (c :: l) :: ls

/-- Go `strings.Split(s, sep)` for a separator of one character (the program
only splits at "\n"). -/
def Split (s : String) (sep : Char) : List String :=
  (splitChars sep s.data).map String.mk

/-- The number written by a string of decimal digits. -/
def decimalValue (s : String) : Nat :=
  s.data.foldl (fun n c => n * 10 + (c.toNat - 48)) 0

/-- Go `strconv.Atoi`, value and error: an optional sign and decimal digits;
anything else is a syntax error with value 0; a number that does not fit a
64-bit `int` is a range error with the nearest representable value. -/
def Atoi (s : String) : Int × Option String :=
  let neg := s.data.head? = some (Char.ofNat 45)
  let body :=
    if s.data.head? = some (Char.ofNat 45) ∨ s.data.head? = some (Char.ofNat 43)
    then s.data.tail else s.data
  if body.isEmpty || !body.all isDigit then (0, some "invalid syntax")
  else
    let n : Int := decimalValue (String.mk body)
    if neg then
      if n > 2 ^ 63 then (-(2 ^ 63), some "value out of range") else (-n, none)
    else
      if n ≥ 2 ^ 63 then (2 ^ 63 - 1, some "value out of range") else (n, none)

/-- Go `%d` of an `int`. -/
def fmtInt (x : Int) : String := toString x

/-! ## Regular expressions (the fragment the program uses)

Go's `regexp` returns the leftmost match and, among the matches starting
there, the one a backtracking search finds first.  The matcher below is that
backtracking search for sequences of literals, greedy captured `(c+)` and lazy
`c*?` over a character class `c`. -/

/-- One element of a regular expression. -/
inductive Item where
  | lit (c : Char)
  | capPlus (cls : Char → Bool)
  | lazyStar (cls : Char → Bool)

/-- Captured groups so far and the unread input. -/
abbrev MatchResult := List String × List Char

/-- Greedy `(c+)` followed by the continuation `k`: `acc` holds the characters
of the group read so far; a longer group is tried before a shorter one. -/
def greedyPlus (cls : Char → Bool) (k : List Char → Option MatchResult) :
    List Char → List Char → Option MatchResult
  | acc, [] =>
    if acc.isEmpty then none
    else (k []).map (fun r => (String.mk acc :: r.1, r.2))
  | acc, c :: cs =>
    if cls c then
      match greedyPlus cls k (acc ++ [c]) cs with
      | some r => some r
      | none =>
        if acc.isEmpty then none
        else (k (c :: cs)).map (fun r => (String.mk acc :: r.1, r.2))
    else
      if acc.isEmpty then none
      else (k (c :: cs)).map (fun r => (String.mk acc :: r.1, r.2))

/-- Lazy `c*?` followed by the continuation `k`: a shorter run is tried before
a longer one. -/
def lazyStar (cls : Char → Bool) (k : List Char → Option MatchResult) :
    List Char → Option MatchResult
  | [] => k []
  | c :: cs =>
    match k (c :: cs) with
    | some r => some r
    | none => if cls c then lazyStar cls k cs else none

/-- Backtracking match of a sequence of items at the start of the input. -/
def matchHere : List Item → List Char → Option MatchResult
  | [], s => some ([], s)
  | Item.lit c :: rest, s =>
    match s with
    | [] => none
    | d :: ds => if d = c then matchHere rest ds else none
  | Item.capPlus cls :: rest, s => greedyPlus cls (fun t => matchHere rest t) [] s
  | Item.lazyStar cls :: rest, s => lazyStar cls (fun t => matchHere rest t) s

/-- Leftmost match: the start positions are tried from left to right.  The
result is the matched text followed by the captured groups, or the empty list
when nothing matches. -/
def findFrom (re : List Item) : List Char → List String
  | [] =>
    match matchHere re [] with
    | some r => String.mk [] :: r.1
    | none => []
  | c :: cs =>
    match matchHere re (c :: cs) with
    | some r => String.mk ((c :: cs).take ((c :: cs).length - r.2.length)) :: r.1
    | none => findFrom re cs

/-- Go `(*Regexp).FindStringSubmatch`. -/
def FindStringSubmatch (re : List Item) (s : String) : List String :=
  findFrom re s.data

/-- The part `(\d+)x(\d+)\+(\d+)\+(\d+)` of the pattern. -/
def geometryPattern : List Item :=
  [Item.capPlus isDigit, Item.lit (Char.ofNat 120), Item.capPlus isDigit,
   Item.lit (Char.ofNat 43), Item.capPlus isDigit, Item.lit (Char.ofNat 43),
   Item.capPlus isDigit]

/-- The part `(\d+)mm x (\d+)mm` of the pattern. -/
def physicalSizePattern : List Item :=
  [Item.capPlus isDigit, Item.lit (Char.ofNat 109), Item.lit (Char.ofNat 109),
   Item.lit (Char.ofNat 32), Item.lit (Char.ofNat 120), Item.lit (Char.ofNat 32),
   Item.capPlus isDigit, Item.lit (Char.ofNat 109), Item.lit (Char.ofNat 109)]

/-- The pattern `(\d+)x(\d+)\+(\d+)\+(\d+).*?(\d+)mm x (\d+)mm`. -/
def resolutionRegexp : List Item :=
  geometryPattern ++ Item.lazyStar notNewline :: physicalSizePattern

/-! ## The program -/

/-- Monitor struct to hold monitor properties. -/
structure Monitor where
  Name : String
  Width : Int
  Height : Int
  PhysicalWidth : Int
  PhysicalHeight : Int
  XOffset : Int
  YOffset : Int
  deriving DecidableEq, Repr

/-- The outcome of `sh -c cmd`: standard output, or the error of a failed
command, as a function of the commands run before and of `cmd`. -/
abbrev Shell := List String → String → Except String String

/-- `RunCommand`: runs `cmd` and returns its output or its error; the second
component is the record of the commands run so far. -/
def RunCommand (sh : Shell) (cmd : String) (log : List String) :
    Except String String × List String :=
  (sh log cmd, log ++ [cmd])

/-- `GetResolutionAndOffset`: the scoped lookup of one monitor and the parse
of its output; `found` is the slice `matches` of the source, and an index
outside of it is the panic `none`. -/
def GetResolutionAndOffset (sh : Shell) (monitorName : String) (log : List String) :
    Option (Except String Monitor × List String) :=
  match RunCommand sh ("xrandr | grep -w '" ++ monitorName ++ " connected'") log with
  | (Except.error err, log1) => some (Except.error err, log1)
  | (Except.ok output, log1) =>
    let found := FindStringSubmatch resolutionRegexp output
    if found.length > 0 then do
      let width := (Atoi (← found[1]?)).1
      let height := (Atoi (← found[2]?)).1
      let xOffset := (Atoi (← found[3]?)).1
      let yOffset := (Atoi (← found[4]?)).1
      let physicalWidth := (Atoi (← found[5]?)).1
      let physicalHeight := (Atoi (← found[6]?)).1
      pure (Except.ok
        { Name := monitorName
          Width := width
          Height := height
          PhysicalWidth := physicalWidth
          PhysicalHeight := physicalHeight
          XOffset := xOffset
          YOffset := yOffset }, log1)
    else some (Except.error "resolution or offset not found", log1)

/-- What the body of the loop of `GetMonitors` does with one line. -/
inductive LineScan where
  | skipped
  | indexOutOfRange
  | found (monitorName : String)
  deriving DecidableEq, Repr

/-- The line test of `GetMonitors` and the extraction `strings.Fields(line)[0]`. -/
def scanQueryLine (line : String) : LineScan :=
  if Contains line " connected" && !Contains line "disconnected" then
    match (Fields line)[0]? with
    | none => LineScan.indexOutOfRange
    | some monitorName => LineScan.found monitorName
  else LineScan.skipped

/-- The loop of `GetMonitors` over the lines of the query output. -/
def getMonitorsLoop (sh : Shell) :
    List String → List Monitor → List String → Option (List Monitor × List String)
  | [], monitors, log => some (monitors, log)
  | line :: rest, monitors, log =>
    match scanQueryLine line with
    | LineScan.skipped => getMonitorsLoop sh rest monitors log
    | LineScan.indexOutOfRange => none
    | LineScan.found monitorName =>
      match GetResolutionAndOffset sh monitorName log with
      | none => none
      | some (Except.ok monitor, log1) => getMonitorsLoop sh rest (monitors ++ [monitor]) log1
      | some (Except.error _, log1) => getMonitorsLoop sh rest monitors log1

/-- `GetMonitors`: the monitors of the connected outputs. -/
def GetMonitors (sh : Shell) (log : List String) : Option (List Monitor × List String) :=
  match RunCommand sh "xrandr --query" log with
  | (Except.error _, log1) => some ([], log1)
  | (Except.ok queryOutput, log1) =>
    getMonitorsLoop sh (Split queryOutput (Char.ofNat 10)) [] log1

/-- The four widths `doSplitScreen` computes. -/
structure SplitWidths where
  leftWidth : Int
  rightWidth : Int
  leftPhysicalWidth : Int
  rightPhysicalWidth : Int
  deriving DecidableEq, Repr

/-- The arithmetic of `doSplitScreen`; `percent` is `int(splitPercentage)`. -/
def splitWidths (monitor : Monitor) (percent : Int) : Option SplitWidths := do
  let leftWidth ← goDiv (goMul monitor.Width percent) 100
  let rightWidth := goSub monitor.Width leftWidth
  let leftPhysicalWidth ← goDiv (goMul monitor.PhysicalWidth leftWidth) monitor.Width
  let rightPhysicalWidth := goSub monitor.PhysicalWidth leftPhysicalWidth
  pure { leftWidth := leftWidth, rightWidth := rightWidth,
         leftPhysicalWidth := leftPhysicalWidth, rightPhysicalWidth := rightPhysicalWidth }

/-- The command `leftCmd` of `doSplitScreen`. -/
def leftCmd (monitor : Monitor) (g : SplitWidths) : String :=
  "xrandr --setmonitor " ++ monitor.Name ++ "-0 " ++ fmtInt g.leftWidth ++ "/" ++
    fmtInt g.leftPhysicalWidth ++ "x" ++ fmtInt monitor.Height ++ "/" ++
    fmtInt monitor.PhysicalHeight ++ "+" ++ fmtInt monitor.XOffset ++ "+" ++
    fmtInt monitor.YOffset ++ " " ++ monitor.Name

/-- The command `rightCmd` of `doSplitScreen`. -/
def rightCmd (monitor : Monitor) (g : SplitWidths) : String :=
  "xrandr --setmonitor " ++ monitor.Name ++ "-1 " ++ fmtInt g.rightWidth ++ "/" ++
    fmtInt g.rightPhysicalWidth ++ "x" ++ fmtInt monitor.Height ++ "/" ++
    fmtInt monitor.PhysicalHeight ++ "+" ++ fmtInt (goAdd monitor.XOffset g.leftWidth) ++
    "+" ++ fmtInt monitor.YOffset ++ " none"

/-- `doSplitScreen`, with `percent` for `int(splitPercentage)`: the result is
the record of the commands run, or `none` when the division panics. -/
def doSplitScreen (sh : Shell) (monitor : Monitor) (percent : Int) (log : List String) :
    Option (List String) :=
  match splitWidths monitor percent with
  | none => none
  | some g =>
    match RunCommand sh (leftCmd monitor g) log with
    | (Except.error _, log1) => some log1
    | (Except.ok _, log1) => some (RunCommand sh (rightCmd monitor g) log1).2

/-- The loop of `ResetAllScreens` over the lines of the listing. -/
def resetAllLoop (sh : Shell) :
    List String → List String → Option (Except String Unit × List String)
  | [], log => some (Except.ok (), log)
  | line :: rest, log =>
    if HasPrefix line " " then
      match (Fields line)[1]? with
      | none => none
      | some monitor =>
        if monitor ≠ "" then
          match RunCommand sh ("xrandr --delmonitor " ++ monitor) log with
          | (Except.error err, log1) => some (Except.error err, log1)
          | (Except.ok _, log1) => resetAllLoop sh rest log1
        else resetAllLoop sh rest log
    else resetAllLoop sh rest log

/-- `ResetAllScreens` deletes all virtual monitors. -/
def ResetAllScreens (sh : Shell) (log : List String) :
    Option (Except String Unit × List String) :=
  match RunCommand sh "xrandr --listmonitors" log with
  | (Except.error err, log1) => some (Except.error err, log1)
  | (Except.ok output, log1) => resetAllLoop sh (Split output (Char.ofNat 10)) log1

/-- The handler of the "Reset Screen" button in `main`; `selected` is
`monitorSelect.Selected`.  The first component is the refreshed monitor list,
when the handler gets that far. -/
def resetButton (sh : Shell) (selected : String) (log : List String) :
    Option (Option (List Monitor) × List String) :=
  if selected = "" then some (none, log)
  else
    match RunCommand sh ("xrandr --delmonitor " ++ selected ++ "-0 && xrandr --delmonitor " ++
        selected ++ "-1") log with
    | (Except.error _, log1) => some (none, log1)
    | (Except.ok _, log1) =>
      match GetMonitors sh log1 with
      | none => none
      | some (monitors, log2) => some (some monitors, log2)


/-! ## Example worlds, and the definitions in the words of the specification -/

/-- The monitor of the scenario: 1920x1080+0+0, 520mm x 290mm. -/
def hdmi1 : Monitor :=
  { Name := "HDMI-1", Width := 1920, Height := 1080, PhysicalWidth := 520,
    PhysicalHeight := 290, XOffset := 0, YOffset := 0 }

/-- A world in which every command succeeds with empty output. -/
def shAllOk : Shell := fun _ _ => Except.ok ""

/-- A world in which every command fails. -/
def shAllFail : Shell := fun _ _ => Except.error "exit status 1"

/-- A monitor whose width times 100 does not fit a Go `int`. -/
def hugeMonitor : Monitor :=
  { Name := "X", Width := 100000000000000000, Height := 1080, PhysicalWidth := 520,
    PhysicalHeight := 290, XOffset := 0, YOffset := 0 }

/-- A monitor whose width and physical width are the largest Go `int`. -/
def maxMonitor : Monitor :=
  { Name := "X", Width := 9223372036854775807, Height := 1080,
    PhysicalWidth := 9223372036854775807, PhysicalHeight := 290, XOffset := 0, YOffset := 0 }

/-- The first whitespace-separated token of a line, in the words of the
specification: skip the leading white space, then read up to the next white
space. -/
def firstToken (line : String) : String :=
  String.mk ((line.data.dropWhile isSpace).takeWhile (fun c => !isSpace c))

deriving instance DecidableEq for Except

/-- The monitor names of a listing, in the words of the specification: the
second whitespace-separated field of every indented line, in listing order. -/
def listedNames (output : String) : List String :=
  ((Split output (Char.ofNat 10)).filter (fun line => HasPrefix line " ")).map
    (fun line => (Fields line).getD 1 "")

/-- The delete commands for the monitors of a listing. -/
def deleteCommands (output : String) : List String :=
  (listedNames output).map (fun name => "xrandr --delmonitor " ++ name)

/-- Running a list of commands in order up to the first failure. -/
def runUntilFailure (sh : Shell) : List String → List String → Except String Unit × List String
  | [], log => (Except.ok (), log)
  | c :: cs, log =>
    match sh log c with
    | Except.error err => (Except.error err, log ++ [c])
    | Except.ok _ => runUntilFailure sh cs (log ++ [c])

/-- A listing of two virtual monitors. -/
def twoListing : String :=
  "Monitors: 2\n 0: HDMI-1-0 960/260x1080/290+0+0  HDMI-1\n 1: HDMI-1-1 960/260x1080/290+960+0\n"

/-- A world that lists two virtual monitors and in which every delete succeeds. -/
def shTwoListed : Shell := fun _ cmd =>
  if cmd = "xrandr --listmonitors" then Except.ok twoListing else Except.ok ""

/-- A world that lists two virtual monitors and in which every delete fails. -/
def shTwoListedFail : Shell := fun _ cmd =>
  if cmd = "xrandr --listmonitors" then Except.ok twoListing
  else Except.error "exit status 1"

/-- A world whose listing has an indented line with a single field. -/
def shShortLine : Shell := fun _ cmd =>
  if cmd = "xrandr --listmonitors" then Except.ok "Monitors: 1\n 0:\n" else Except.ok ""

/-- The character classes of the captured groups of a pattern, in order. -/
def captureClasses : List Item → List (Char → Bool)
  | [] => []
  | Item.lit _ :: rest => captureClasses rest
  | Item.capPlus cls :: rest => cls :: captureClasses rest
  | Item.lazyStar _ :: rest => captureClasses rest

/-- A non-empty string of decimal digits. -/
def isNumber (s : String) : Prop := s.data ≠ [] ∧ ∀ c ∈ s.data, isDigit c = true

instance (s : String) : Decidable (isNumber s) := by
  unfold isNumber; infer_instance

/-- The command of the scoped lookup of `GetResolutionAndOffset`. -/
def lookupCommand (name : String) : String :=
  "xrandr | grep -w '" ++ name ++ " connected'"

/-- A world in which every command prints the given text. -/
def shPrints (output : String) : Shell := fun _ _ => Except.ok output

/-- A lookup output with the text "(10mm x 20mm)" between the offsets and the
physical size. -/
def lineWithEarlierSize : String :=
  "HDMI-1 connected primary 1920x1080+0+0 (10mm x 20mm) 520mm x 290mm\n"

/-- A lookup output that reports the geometry 0x0+0+0. -/
def lineZeroWidth : String := "X connected 0x0+0+0 (normal) 0mm x 0mm\n"

/-- The line test of `GetMonitors`. -/
def isCandidate (line : String) : Bool :=
  Contains line " connected" && !Contains line "disconnected"

/-- The candidate identifiers of a query output, in the words of the
specification: the first token of every candidate line, in the order of the
lines. -/
def candidateNames (queryOutput : String) : List String :=
  ((Split queryOutput (Char.ofNat 10)).filter isCandidate).map firstToken

/-- The monitor parsed from a lookup output, in the words of the
specification: when the pattern matches, the six integers in the order width,
height, x-offset, y-offset, physical width, physical height. -/
def parseLookup (name output : String) : Option Monitor :=
  match FindStringSubmatch resolutionRegexp output with
  | [_, w, h, x, y, pw, ph] =>
    some { Name := name, Width := (Atoi w).1, Height := (Atoi h).1,
           PhysicalWidth := (Atoi pw).1, PhysicalHeight := (Atoi ph).1,
           XOffset := (Atoi x).1, YOffset := (Atoi y).1 }
  | _ => none

/-- The monitor of one identifier, when its scoped lookup, run after the
commands `log`, succeeds and its output matches the pattern. -/
def lookupAt (sh : Shell) (log : List String) (name : String) : Option Monitor :=
  match sh log (lookupCommand name) with
  | Except.ok output => parseLookup name output
  | Except.error _ => none

/-- The result of discovery, in the words of the specification: the monitors
of the identifiers whose lookup succeeds and matches, in the order of the
identifiers; the lookup of an identifier runs after the lookups of the
identifiers before it. -/
def discovered (sh : Shell) (log : List String) (names : List String) : List Monitor :=
  (List.zip names.inits names).filterMap
    (fun p => lookupAt sh (log ++ p.1.map lookupCommand) p.2)

/-- A query output with one connected and one disconnected output. -/
def queryTwoOutputs : String :=
  "Screen 0: minimum 320 x 200\nHDMI-1 connected primary 1920x1080+0+0 (normal) 520mm x 290mm\nDP-1 disconnected (normal)\n"

/-- A world with the outputs of `queryTwoOutputs`. -/
def shTwoOutputs : Shell := fun _ cmd =>
  if cmd = "xrandr --query" then Except.ok queryTwoOutputs
  else if cmd = "xrandr | grep -w 'HDMI-1 connected'" then
    Except.ok "HDMI-1 connected primary 1920x1080+0+0 (normal) 520mm x 290mm\n"
  else Except.error "exit status 1"

/-! ## The shell that `RunCommand` starts

`RunCommand` executes `sh -c cmd`.  The functions below describe what `sh` does
with a command line, in terms of a `tool`: the outcome of one command that `sh`
runs, given the commands that were run before it.  Only command lines that are
AND-lists `c1 && c2 && ...` of `xrandr` invocations with plain words as
arguments are taken apart; on such a line `sh` performs no expansion and no
quoting, runs the commands from left to right and stops at the first that
fails.  Every other command line is run as one unit, whose outcome is left to
the `tool`. -/

/-- Splitting of a list at every occurrence of `sep`. -/
def splitOnElem {α : Type} [DecidableEq α] (sep : α) : List α → List (List α)
  | [] => [[]]
  | c :: cs =>
    if c = sep then [] :: splitOnElem sep cs
    else
      match splitOnElem sep cs with
      | [] => [[c]]
      | l :: ls => (c :: l) :: ls

/-- A character that means nothing to the shell: a letter, a digit, `-`, `_`
or `.`. -/
def isPlainChar (c : Char) : Bool :=
  let n := c.toNat
  (48 ≤ n && n ≤ 57) || (65 ≤ n && n ≤ 90) || (97 ≤ n && n ≤ 122) ||
    n == 45 || n == 95 || n == 46

/-- A non-empty word of plain characters. -/
def isPlainWord (w : List Char) : Bool := !w.isEmpty && w.all isPlainChar

/-- The commands of a command line that is an AND-list of `xrandr` invocations
with plain words, separated by single blanks; `none` for any other line. -/
def parseAndList (cmd : String) : Option (List String) :=
  let groups := splitOnElem "&&".data (splitOnElem (Char.ofNat 32) cmd.data)
  if groups.all (fun g => g.head? == some "xrandr".data && g.all isPlainWord) then
    some (groups.map (fun g => String.mk ([Char.ofNat 32].intercalate g)))
  else none

/-- Evaluation of an AND-list: the commands are run in order up to the first
failure; the result is the output of all of them or the error of the one that
failed, and the record of the commands run. -/
def runAndList (tool : Shell) : List String → List String → Except String String × List String
  | [], trace => (Except.ok "", trace)
  | c :: cs, trace =>
    match tool trace c with
    | Except.error err => (Except.error err, trace ++ [c])
    | Except.ok out =>
      match cs with
      | [] => (Except.ok out, trace ++ [c])
      | _ :: _ =>
        match runAndList tool cs (trace ++ [c]) with
        | (Except.error err, trace1) => (Except.error err, trace1)
        | (Except.ok out1, trace1) => (Except.ok (out ++ out1), trace1)

/-- What `sh -c cmd` does after the commands `trace`. -/
def shEval (tool : Shell) (cmd : String) (trace : List String) :
    Except String String × List String :=
  match parseAndList cmd with
  | some cmds => runAndList tool cmds trace
  | none => (tool trace cmd, trace ++ [cmd])

/-- The commands that `sh` has run when the program has run the command lines
`log`. -/
def attempts (tool : Shell) (log : List String) : List String :=
  log.foldl (fun trace cmd => (shEval tool cmd trace).2) []

/-- The world of the program when its commands go through `sh` to `tool`. -/
def viaSh (tool : Shell) : Shell :=
  fun log cmd => (shEval tool cmd (attempts tool log)).1

/-- A tool for which the deletion of HDMI-1-0 fails and everything else
succeeds. -/
def toolFirstDeleteFails : Shell := fun _ cmd =>
  if cmd = "xrandr --delmonitor HDMI-1-0" then Except.error "exit status 1" else Except.ok ""

/-! ## Integer arithmetic -/

theorem wrap64_eq_self {x : Int} (h : isInt64 x) : wrap64 x = x := by
  unfold isInt64 at h
  unfold wrap64
  norm_num at h ⊢
  omega

theorem goAdd_goSub_cancel {a b : Int} (h : isInt64 a) : goAdd b (goSub a b) = a := by
  unfold isInt64 at h
  unfold goAdd goSub wrap64
  norm_num at h ⊢
  omega

theorem floor_div_eq (a b : Int) (hb : 0 < b) : ⌊(a : ℚ) / (b : ℚ)⌋ = a / b := by
  obtain ⟨n, rfl⟩ := Int.eq_ofNat_of_zero_le hb.le
  have h := Rat.floor_intCast_div_natCast a n
  simpa using h

theorem splitWidths_eq (m : Monitor) (p : Int) (h : m.Width ≠ 0) :
    splitWidths m p = some
      { leftWidth := wrap64 (Int.tdiv (goMul m.Width p) 100)
        rightWidth := goSub m.Width (wrap64 (Int.tdiv (goMul m.Width p) 100))
        leftPhysicalWidth :=
          wrap64 (Int.tdiv (goMul m.PhysicalWidth (wrap64 (Int.tdiv (goMul m.Width p) 100)))
            m.Width)
        rightPhysicalWidth := goSub m.PhysicalWidth
          (wrap64 (Int.tdiv (goMul m.PhysicalWidth (wrap64 (Int.tdiv (goMul m.Width p) 100)))
            m.Width)) } := by
  simp [splitWidths, goDiv, h]

/-- Without overflow the left widths are the floor quotients. -/
theorem splitWidths_exact (m : Monitor) (p : Int) (hW : 0 < m.Width)
    (hPW : 0 ≤ m.PhysicalWidth) (hp : 0 ≤ p) (h1 : m.Width * p < 2 ^ 63)
    (h2 : m.PhysicalWidth * (m.Width * p / 100) < 2 ^ 63) :
    wrap64 (Int.tdiv (goMul m.Width p) 100) = m.Width * p / 100 ∧
    wrap64 (Int.tdiv (goMul m.PhysicalWidth (wrap64 (Int.tdiv (goMul m.Width p) 100))) m.Width)
      = m.PhysicalWidth * (m.Width * p / 100) / m.Width := by
  have hwp : 0 ≤ m.Width * p := Int.mul_nonneg hW.le hp
  have e1 : goMul m.Width p = m.Width * p :=
    wrap64_eq_self ⟨by linarith, h1⟩
  have hl0 : 0 ≤ m.Width * p / 100 := Int.ediv_nonneg hwp (by norm_num)
  have hl1 : m.Width * p / 100 ≤ m.Width * p := Int.ediv_le_self _ hwp
  have e2 : wrap64 (Int.tdiv (goMul m.Width p) 100) = m.Width * p / 100 := by
    rw [e1, Int.tdiv_eq_ediv hwp (by norm_num)]
    exact wrap64_eq_self ⟨by linarith, by linarith⟩
  refine ⟨e2, ?_⟩
  rw [e2]
  have hq : 0 ≤ m.PhysicalWidth * (m.Width * p / 100) := Int.mul_nonneg hPW hl0
  have e3 : goMul m.PhysicalWidth (m.Width * p / 100) = m.PhysicalWidth * (m.Width * p / 100) :=
    wrap64_eq_self ⟨by linarith, h2⟩
  rw [e3, Int.tdiv_eq_ediv hq hW.le]
  have h3 : 0 ≤ m.PhysicalWidth * (m.Width * p / 100) / m.Width := Int.ediv_nonneg hq hW.le
  have h4 : m.PhysicalWidth * (m.Width * p / 100) / m.Width ≤ m.PhysicalWidth * (m.Width * p / 100) :=
    Int.ediv_le_self _ hq
  exact wrap64_eq_self ⟨by linarith, by linarith⟩

/-! ## The split -/

/-- A truncated quotient `x * l / W` with `l` between 0 and `W` lies between
0 and `x`. -/
theorem tdiv_mul_between_pos (x l W : Int) (hW : 0 < W) (hl : 0 ≤ l ∧ l ≤ W) :
    (0 ≤ Int.tdiv (x * l) W ∧ Int.tdiv (x * l) W ≤ x) ∨
    (x ≤ Int.tdiv (x * l) W ∧ Int.tdiv (x * l) W ≤ 0) := by
  rcases le_or_lt 0 x with hx | hx
  · left
    have hq : 0 ≤ x * l := Int.mul_nonneg hx hl.1
    rw [Int.tdiv_eq_ediv hq hW.le]
    exact ⟨Int.ediv_nonneg hq hW.le, Int.ediv_le_of_le_mul hW (by nlinarith)⟩
  · right
    have hq : 0 ≤ -x * l := Int.mul_nonneg (by linarith) hl.1
    have e : x * l = -(-x * l) := by ring
    rw [e, Int.neg_tdiv, Int.tdiv_eq_ediv hq hW.le]
    have h1 : 0 ≤ -x * l / W := Int.ediv_nonneg hq hW.le
    have h2 : -x * l / W ≤ -x := Int.ediv_le_of_le_mul hW (by nlinarith)
    constructor <;> linarith

theorem tdiv_mul_between (x l W : Int) (hW : W ≠ 0)
    (hl : (0 ≤ l ∧ l ≤ W) ∨ (W ≤ l ∧ l ≤ 0)) :
    (0 ≤ Int.tdiv (x * l) W ∧ Int.tdiv (x * l) W ≤ x) ∨
    (x ≤ Int.tdiv (x * l) W ∧ Int.tdiv (x * l) W ≤ 0) := by
  rcases lt_or_gt_of_ne hW with hneg | hpos
  · have hl2 : 0 ≤ -l ∧ -l ≤ -W := by
      rcases hl with h | h
      · have : l = 0 := by linarith [h.1, h.2]
        subst this
        constructor <;> linarith
      · constructor <;> linarith [h.1, h.2]
    have h := tdiv_mul_between_pos x (-l) (-W) (by linarith) hl2
    have e : x * -l = -(x * l) := by ring
    rw [e, Int.neg_tdiv, Int.tdiv_neg, neg_neg] at h
    exact h
  · have hl2 : 0 ≤ l ∧ l ≤ W := by
      rcases hl with h | h
      · exact h
      · have : l = 0 := by linarith [h.1, h.2]
        subst this
        constructor <;> linarith
    exact tdiv_mul_between_pos x l W hpos hl2

theorem isInt64_of_between {a x : Int} (hx : isInt64 x)
    (h : (0 ≤ a ∧ a ≤ x) ∨ (x ≤ a ∧ a ≤ 0)) : isInt64 a := by
  unfold isInt64 at hx ⊢
  rcases h with h | h <;> constructor <;> linarith [hx.1, hx.2, h.1, h.2]

theorem isInt64_sub_of_between {a x : Int} (hx : isInt64 x)
    (h : (0 ≤ a ∧ a ≤ x) ∨ (x ≤ a ∧ a ≤ 0)) : isInt64 (x - a) := by
  unfold isInt64 at hx ⊢
  rcases h with h | h <;> constructor <;> linarith [hx.1, hx.2, h.1, h.2]

/-- C1 as stated fails: at Width = PhysicalWidth = 2^63 - 1 and 100 percent
the product `Width * 100` overflows, the widths are -1 and -2^63, and their
sum as integers is -2^63 - 1, not the width. -/
theorem splitWidths_sum_overflow :
    isInt64 maxMonitor.Width ∧ isInt64 maxMonitor.PhysicalWidth ∧
    (splitWidths maxMonitor 100).map (fun g => (g.leftWidth, g.rightWidth)) =
      some (-1, -9223372036854775808) ∧
    (splitWidths maxMonitor 100).map (fun g => g.leftWidth + g.rightWidth) =
      some (-9223372036854775809) ∧
    (splitWidths maxMonitor 100).map (fun g => g.leftPhysicalWidth + g.rightPhysicalWidth) =
      some (-9223372036854775809) := by
  decide

/-- C1 (amended): for every monitor whose width is not 0 and every percent in
0..100 the four widths of `doSplitScreen` exist and add up to the width and to
the physical width of the monitor in Go arithmetic (modulo 2^64); when the
products `Width * percent` and `PhysicalWidth * leftWidth` fit a Go `int` the
sums are exact as integers. -/
theorem splitWidths_sums (m : Monitor) (p : Int) (hW64 : isInt64 m.Width)
    (hPW64 : isInt64 m.PhysicalWidth) (hW : m.Width ≠ 0) (hp : 0 ≤ p ∧ p ≤ 100) :
    ∃ g, splitWidths m p = some g ∧
      goAdd g.leftWidth g.rightWidth = m.Width ∧
      goAdd g.leftPhysicalWidth g.rightPhysicalWidth = m.PhysicalWidth ∧
      (isInt64 (m.Width * p) → isInt64 (m.PhysicalWidth * g.leftWidth) →
        g.leftWidth + g.rightWidth = m.Width ∧
        g.leftPhysicalWidth + g.rightPhysicalWidth = m.PhysicalWidth) := by
  refine ⟨_, splitWidths_eq m p hW, goAdd_goSub_cancel hW64, goAdd_goSub_cancel hPW64, ?_⟩
  dsimp only
  intro h1 h2
  have hl := tdiv_mul_between m.Width p 100 (by norm_num) (Or.inl hp)
  have e1 : goMul m.Width p = m.Width * p := wrap64_eq_self h1
  have e2 : wrap64 (Int.tdiv (m.Width * p) 100) = Int.tdiv (m.Width * p) 100 :=
    wrap64_eq_self (isInt64_of_between hW64 hl)
  rw [e1, e2] at h2 ⊢
  have hpl := tdiv_mul_between m.PhysicalWidth (Int.tdiv (m.Width * p) 100) m.Width hW hl
  have e3 : goMul m.PhysicalWidth (Int.tdiv (m.Width * p) 100) =
      m.PhysicalWidth * Int.tdiv (m.Width * p) 100 := wrap64_eq_self h2
  have e4 : wrap64 (Int.tdiv (m.PhysicalWidth * Int.tdiv (m.Width * p) 100) m.Width) =
      Int.tdiv (m.PhysicalWidth * Int.tdiv (m.Width * p) 100) m.Width :=
    wrap64_eq_self (isInt64_of_between hPW64 hpl)
  rw [e3, e4]
  constructor
  · rw [goSub, wrap64_eq_self (isInt64_sub_of_between hW64 hl)]; ring
  · rw [goSub, wrap64_eq_self (isInt64_sub_of_between hPW64 hpl)]; ring

/-- C1 (amended), at the monitor 1920x1080 (520mm wide) and 50 percent: the
widths are 960, 960, 260, 260 and the sums are exact. -/
theorem splitWidths_sums_witness :
    splitWidths hdmi1 50 = some
      { leftWidth := 960, rightWidth := 960, leftPhysicalWidth := 260,
        rightPhysicalWidth := 260 } ∧
    goAdd 960 960 = hdmi1.Width ∧ goAdd 260 260 = hdmi1.PhysicalWidth ∧
    (960 : Int) + 960 = hdmi1.Width ∧ (260 : Int) + 260 = hdmi1.PhysicalWidth := by
  obtain ⟨g, hg, h1, h2, h3⟩ :=
    splitWidths_sums hdmi1 50 (by decide) (by decide) (by decide) (by decide)
  have e : splitWidths hdmi1 50 = some
      { leftWidth := 960, rightWidth := 960, leftPhysicalWidth := 260,
        rightPhysicalWidth := 260 } := by decide
  rw [e] at hg
  cases hg
  exact ⟨e, h1, h2, (h3 (by decide) (by decide)).1, (h3 (by decide) (by decide)).2⟩

/-- C2 as stated fails: for a monitor 10^17 pixels wide and 100 percent the
product `Width * 100` overflows the Go `int` and `leftWidth` is negative, not
the floor of `Width * 100 / 100`. -/
theorem splitWidths_overflow :
    (0 : Int) < hugeMonitor.Width ∧ isInt64 hugeMonitor.Width ∧
    (splitWidths hugeMonitor 100).map (fun g => g.leftWidth) = some (-84467440737095516) ∧
    hugeMonitor.Width * 100 / 100 = 100000000000000000 := by
  decide

/-- C2 (amended): for a monitor of positive width, non-negative physical width
and a percent in 0..100 such that the products `Width * percent` and
`PhysicalWidth * leftWidth` fit a Go `int`, `leftWidth` is the floor of
`Width * percent / 100`, `leftPhysicalWidth` is the floor of
`PhysicalWidth * leftWidth / Width`, and the two commands carry the height, the
physical height and the y-offset of the monitor unchanged, the x-offset of the
monitor on the left and (when the sum fits) x-offset + leftWidth on the right. -/
theorem splitWidths_floor (m : Monitor) (p : Int) (hW : 0 < m.Width)
    (hPW : 0 ≤ m.PhysicalWidth) (hp : 0 ≤ p ∧ p ≤ 100) (h1 : m.Width * p < 2 ^ 63)
    (h2 : m.PhysicalWidth * (m.Width * p / 100) < 2 ^ 63)
    (hx : isInt64 (m.XOffset + m.Width * p / 100)) :
    ∃ g, splitWidths m p = some g ∧
      g.leftWidth = ⌊(m.Width : ℚ) * (p : ℚ) / 100⌋ ∧
      g.leftPhysicalWidth = ⌊(m.PhysicalWidth : ℚ) * (g.leftWidth : ℚ) / (m.Width : ℚ)⌋ ∧
      leftCmd m g = "xrandr --setmonitor " ++ m.Name ++ "-0 " ++ fmtInt g.leftWidth ++ "/" ++
        fmtInt g.leftPhysicalWidth ++ "x" ++ fmtInt m.Height ++ "/" ++
        fmtInt m.PhysicalHeight ++ "+" ++ fmtInt m.XOffset ++ "+" ++ fmtInt m.YOffset ++
        " " ++ m.Name ∧
      rightCmd m g = "xrandr --setmonitor " ++ m.Name ++ "-1 " ++ fmtInt g.rightWidth ++ "/" ++
        fmtInt g.rightPhysicalWidth ++ "x" ++ fmtInt m.Height ++ "/" ++
        fmtInt m.PhysicalHeight ++ "+" ++ fmtInt (m.XOffset + g.leftWidth) ++ "+" ++
        fmtInt m.YOffset ++ " none" := by
  obtain ⟨e1, e2⟩ := splitWidths_exact m p hW hPW hp.1 h1 h2
  refine ⟨_, splitWidths_eq m p hW.ne', ?_, ?_, rfl, ?_⟩
  · have h := floor_div_eq (m.Width * p) 100 (by norm_num)
    push_cast at h
    dsimp only
    rw [e1]
    exact h.symm
  · have h := floor_div_eq (m.PhysicalWidth * (m.Width * p / 100)) m.Width hW
    dsimp only
    rw [e2, e1, ← h]
    push_cast
    rfl
  · simp only [rightCmd, goAdd, e1, wrap64_eq_self hx]

/-- C2 (amended), at the monitor 1920x1080+0+0 (520mm wide) and 50 percent:
left 960/260 at x-offset 0, right 960/260 at x-offset 960. -/
theorem splitWidths_floor_witness :
    splitWidths hdmi1 50 = some
      { leftWidth := 960, rightWidth := 960, leftPhysicalWidth := 260,
        rightPhysicalWidth := 260 } ∧
    doSplitScreen shAllOk hdmi1 50 [] = some
      ["xrandr --setmonitor HDMI-1-0 960/260x1080/290+0+0 HDMI-1",
       "xrandr --setmonitor HDMI-1-1 960/260x1080/290+960+0 none"] ∧
    ∃ g, splitWidths hdmi1 50 = some g ∧
      g.leftWidth = ⌊(hdmi1.Width : ℚ) * ((50 : Int) : ℚ) / 100⌋ ∧
      g.leftPhysicalWidth =
        ⌊(hdmi1.PhysicalWidth : ℚ) * (g.leftWidth : ℚ) / (hdmi1.Width : ℚ)⌋ ∧
      leftCmd hdmi1 g = "xrandr --setmonitor " ++ hdmi1.Name ++ "-0 " ++ fmtInt g.leftWidth ++
        "/" ++ fmtInt g.leftPhysicalWidth ++ "x" ++ fmtInt hdmi1.Height ++ "/" ++
        fmtInt hdmi1.PhysicalHeight ++ "+" ++ fmtInt hdmi1.XOffset ++ "+" ++
        fmtInt hdmi1.YOffset ++ " " ++ hdmi1.Name ∧
      rightCmd hdmi1 g = "xrandr --setmonitor " ++ hdmi1.Name ++ "-1 " ++
        fmtInt g.rightWidth ++ "/" ++ fmtInt g.rightPhysicalWidth ++ "x" ++
        fmtInt hdmi1.Height ++ "/" ++ fmtInt hdmi1.PhysicalHeight ++ "+" ++
        fmtInt (hdmi1.XOffset + g.leftWidth) ++ "+" ++ fmtInt hdmi1.YOffset ++ " none" :=
  ⟨by decide, by decide,
    splitWidths_floor hdmi1 50 (by decide) (by decide) (by decide) (by decide) (by decide)
      (by decide)⟩

theorem startsWith_iff (s p : List Char) : startsWith s p = true ↔ ∃ t, s = p ++ t := by
  induction p generalizing s with
  | nil => cases s <;> simp [startsWith]
  | cons a p ih =>
    cases s with
    | nil => simp [startsWith]
    | cons c cs =>
      simp only [startsWith, Bool.and_eq_true, beq_iff_eq, ih, List.cons_append,
        List.cons.injEq]
      constructor
      · rintro ⟨rfl, t, rfl⟩; exact ⟨t, rfl, rfl⟩
      · rintro ⟨t, rfl, rfl⟩; exact ⟨rfl, t, rfl⟩

theorem containsChars_iff (s sub : List Char) :
    containsChars s sub = true ↔ ∃ a b, s = a ++ sub ++ b := by
  induction s with
  | nil =>
    simp only [containsChars, startsWith_iff]
    constructor
    · rintro ⟨t, h⟩; exact ⟨[], t, by simpa using h⟩
    · rintro ⟨a, b, h⟩
      have h1 : a = [] := by
        cases a with
        | nil => rfl
        | cons x xs => simp at h
      subst h1
      exact ⟨b, by simpa using h⟩
  | cons c cs ih =>
    simp only [containsChars, Bool.or_eq_true, startsWith_iff, ih]
    constructor
    · rintro (⟨t, h⟩ | ⟨a, b, h⟩)
      · exact ⟨[], t, by simpa using h⟩
      · exact ⟨c :: a, b, by simp [h]⟩
    · rintro ⟨a, b, h⟩
      cases a with
      | nil => exact Or.inl ⟨b, by simpa using h⟩
      | cons x xs =>
        simp only [List.cons_append, List.cons.injEq] at h
        exact Or.inr ⟨xs, b, by simpa using h.2⟩

theorem fieldsAux_cur (s cur : List Char) (hcur : cur ≠ []) :
    fieldsAux s cur =
      (cur ++ s.takeWhile (fun c => !isSpace c)) ::
        fieldsAux (s.dropWhile (fun c => !isSpace c)) [] := by
  induction s generalizing cur with
  | nil => simp [fieldsAux, hcur]
  | cons c cs ih =>
    by_cases hc : isSpace c = true
    · simp [fieldsAux, hc, hcur, List.takeWhile, List.dropWhile]
    · simp only [Bool.not_eq_true] at hc
      simp only [fieldsAux, hc, List.takeWhile, List.dropWhile, Bool.not_false]
      rw [ih (cur ++ [c]) (by simp)]
      simp

theorem fieldsAux_nil (s : List Char) :
    fieldsAux s [] = fieldsAux (s.dropWhile isSpace) [] := by
  induction s with
  | nil => rfl
  | cons c cs ih =>
    by_cases hc : isSpace c = true
    · simp only [fieldsAux, hc, List.dropWhile]
      simpa using ih
    · simp only [Bool.not_eq_true] at hc
      simp [List.dropWhile, hc]

theorem fieldsAux_head (s : List Char) (h : s.dropWhile isSpace ≠ []) :
    (fieldsAux s [])[0]? =
      some ((s.dropWhile isSpace).takeWhile (fun c => !isSpace c)) := by
  rw [fieldsAux_nil]
  cases hd : s.dropWhile isSpace with
  | nil => exact absurd hd h
  | cons c cs =>
    have hc : isSpace c = false := by
      have := List.head_dropWhile_not isSpace s (by rw [hd]; simp)
      simpa [hd] using this
    simp only [fieldsAux, hc, List.takeWhile, Bool.not_false]
    rw [fieldsAux_cur cs ([] ++ [c]) (by simp)]
    simp

theorem fieldsAux_ne_nil (s cur : List Char) : ∀ f ∈ fieldsAux s cur, f ≠ [] := by
  induction s generalizing cur with
  | nil =>
    intro f hf
    by_cases hcur : cur = []
    · simp [fieldsAux, hcur] at hf
    · simp [fieldsAux, hcur] at hf
      rw [hf]; exact hcur
  | cons c cs ih =>
    intro f hf
    by_cases hc : isSpace c = true
    · by_cases hcur : cur = []
      · simp only [fieldsAux, hc, hcur, List.isEmpty_nil, if_true] at hf
        exact ih [] f hf
      · simp only [fieldsAux, hc, if_true, List.isEmpty_eq_true, hcur, if_false,
          List.mem_cons] at hf
        rcases hf with rfl | hf
        · exact hcur
        · exact ih [] f hf
    · simp only [Bool.not_eq_true] at hc
      simp only [fieldsAux, hc] at hf
      exact ih _ f hf

theorem dropWhile_isSpace_ne_nil (s : List Char) (c : Char) (hc : c ∈ s)
    (hs : isSpace c = false) : s.dropWhile isSpace ≠ [] := by
  intro h
  rw [List.dropWhile_eq_nil_iff] at h
  have := h c hc
  simp [hs] at this

/-- C5 as stated fails: the line "connected" contains "connected" and not
"disconnected", and `GetMonitors` extracts no identifier from it, because the
test of the program is for " connected" with a leading blank. -/
theorem scanQueryLine_without_blank :
    Contains "connected" "connected" = true ∧
    Contains "connected" "disconnected" = false ∧
    scanQueryLine "connected" = LineScan.skipped ∧
    firstToken "connected" = "connected" := by
  decide

theorem scanQueryLine_candidate (line : String) (h1 : Contains line " connected" = true)
    (h2 : Contains line "disconnected" = false) :
    scanQueryLine line = LineScan.found (firstToken line) ∧ firstToken line ≠ "" := by
  have hne : line.data.dropWhile isSpace ≠ [] := by
    obtain ⟨a, b, hab⟩ := (containsChars_iff _ _).1 h1
    apply dropWhile_isSpace_ne_nil line.data (Char.ofNat 99)
    · rw [hab]; simp
    · decide
  have hhead := fieldsAux_head line.data hne
  constructor
  · simp only [scanQueryLine, h1, h2, Fields, Bool.not_false, Bool.and_self, if_true,
      List.getElem?_map, hhead, Option.map_some', firstToken]
  · intro h
    have h0 : (firstToken line).data = [] := by rw [h]
    simp only [firstToken] at h0
    cases hd : line.data.dropWhile isSpace with
    | nil => exact hne hd
    | cons c cs =>
      have hc : isSpace c = false := by
        have := List.head_dropWhile_not isSpace line.data (by rw [hd]; simp)
        simpa [hd] using this
      rw [hd] at h0
      simp [List.takeWhile, hc] at h0

/-- C5 (amended): for every line that contains " connected" (with the leading
blank) and does not contain "disconnected", `GetMonitors` extracts an
identifier, the index 0 is in range, and the identifier is the first
whitespace-separated token of the line, which is not empty; every line that
contains "disconnected" yields no identifier. -/
theorem scanQueryLine_spec (line : String) :
    (Contains line " connected" = true → Contains line "disconnected" = false →
      scanQueryLine line = LineScan.found (firstToken line) ∧ firstToken line ≠ "") ∧
    (Contains line "disconnected" = true → scanQueryLine line = LineScan.skipped) := by
  constructor
  · exact scanQueryLine_candidate line
  · intro h
    simp [scanQueryLine, h]

/-- C5 (amended), at the line of the scenario and at a disconnected line. -/
theorem scanQueryLine_spec_witness :
    scanQueryLine "HDMI-1 connected primary 1920x1080+0+0 (normal) 520mm x 290mm" =
      LineScan.found "HDMI-1" ∧
    scanQueryLine "DP-1 disconnected (normal left inverted right x axis y axis)" =
      LineScan.skipped := by
  have h1 := (scanQueryLine_spec
    "HDMI-1 connected primary 1920x1080+0+0 (normal) 520mm x 290mm").1 (by decide) (by decide)
  have h2 := (scanQueryLine_spec
    "DP-1 disconnected (normal left inverted right x axis y axis)").2 (by decide)
  refine ⟨?_, h2⟩
  rw [h1.1]
  decide

/-! ## Reset of all screens -/

theorem Fields_getElem_ne_empty (line : String) (i : Nat) (f : String)
    (h : (Fields line)[i]? = some f) : f ≠ "" := by
  have hmem : f ∈ Fields line := List.getElem?_mem h
  simp only [Fields, List.mem_map] at hmem
  obtain ⟨l, hl, rfl⟩ := hmem
  intro h0
  have h1 : (String.mk l).data = ("" : String).data := by rw [h0]
  exact fieldsAux_ne_nil _ _ l hl h1

theorem resetAllLoop_eq (sh : Shell) (lines : List String) (log : List String)
    (h : ∀ line ∈ lines, HasPrefix line " " = true → 2 ≤ (Fields line).length) :
    resetAllLoop sh lines log = some (runUntilFailure sh
      (((lines.filter (fun line => HasPrefix line " ")).map
        (fun line => (Fields line).getD 1 "")).map
        (fun name => "xrandr --delmonitor " ++ name)) log) := by
  induction lines generalizing log with
  | nil => rfl
  | cons line rest ih =>
    have hrest : ∀ l ∈ rest, HasPrefix l " " = true → 2 ≤ (Fields l).length :=
      fun l hl => h l (List.mem_cons_of_mem _ hl)
    by_cases hp : HasPrefix line " " = true
    · have hlen := h line (List.mem_cons_self _ _) hp
      have hget : (Fields line)[1]? = some ((Fields line).getD 1 "") := by
        rw [List.getD_eq_getElem?_getD, List.getElem?_eq_getElem (by omega)]
        rfl
      have hne := Fields_getElem_ne_empty line 1 _ hget
      simp only [resetAllLoop, hp, if_true, hget, ne_eq, hne, not_false_eq_true,
        RunCommand, List.filter_cons_of_pos, List.map_cons, runUntilFailure]
      cases hsh : sh log ("xrandr --delmonitor " ++ (Fields line).getD 1 "") with
      | error err => rfl
      | ok out => exact ih _ hrest
    · simp only [resetAllLoop, hp, Bool.false_eq_true, if_false]
      have hf : List.filter (fun line => HasPrefix line " ") (line :: rest) =
          List.filter (fun line => HasPrefix line " ") rest := by
        simp [List.filter, hp]
      rw [hf]
      exact ih _ hrest

theorem runUntilFailure_all_ok (sh : Shell) (cs : List String) (log : List String)
    (h : ∀ i, i < cs.length → ∃ out, sh (log ++ cs.take i) (cs.getD i "") = Except.ok out) :
    runUntilFailure sh cs log = (Except.ok (), log ++ cs) := by
  induction cs generalizing log with
  | nil => simp [runUntilFailure]
  | cons c cs ih =>
    obtain ⟨out, h0⟩ := h 0 (by simp)
    simp only [List.take_zero, List.append_nil, List.getD_cons_zero] at h0
    simp only [runUntilFailure, h0]
    rw [ih (log ++ [c])]
    · simp
    · intro i hi
      obtain ⟨o, ho⟩ := h (i + 1) (by simpa using hi)
      exact ⟨o, by simpa using ho⟩

theorem runUntilFailure_first_error (sh : Shell) (cs : List String) (log : List String)
    (k : Nat) (err : String) (hk : k < cs.length)
    (hok : ∀ i, i < k → ∃ out, sh (log ++ cs.take i) (cs.getD i "") = Except.ok out)
    (herr : sh (log ++ cs.take k) (cs.getD k "") = Except.error err) :
    runUntilFailure sh cs log = (Except.error err, log ++ cs.take (k + 1)) := by
  induction cs generalizing log k with
  | nil => simp at hk
  | cons c cs ih =>
    cases k with
    | zero =>
      simp only [List.take_zero, List.append_nil, List.getD_cons_zero] at herr
      simp [runUntilFailure, herr]
    | succ k =>
      obtain ⟨out, h0⟩ := hok 0 (by omega)
      simp only [List.take_zero, List.append_nil, List.getD_cons_zero] at h0
      simp only [runUntilFailure, h0]
      rw [ih (log ++ [c]) k (by simpa using hk)]
      · simp
      · intro i hi
        obtain ⟨o, ho⟩ := hok (i + 1) (by omega)
        exact ⟨o, by simpa using ho⟩
      · simpa using herr

/-- C7: when the listing succeeds and every indented line of it has a second
field, `ResetAllScreens` runs, after the listing, the commands
`xrandr --delmonitor <name>` for the second fields of the indented lines, in
listing order: if the delete number `k` is the first that fails, the deletes
up to it are the only ones run and its failure is returned; if every delete
succeeds, all of them are run and the result is success. -/
theorem ResetAllScreens_deletes (sh : Shell) (log : List String) (output : String)
    (hout : sh log "xrandr --listmonitors" = Except.ok output)
    (hnames : ∀ line ∈ Split output (Char.ofNat 10),
      HasPrefix line " " = true → 2 ≤ (Fields line).length) :
    (∀ k err, k < (deleteCommands output).length →
      (∀ i, i < k → ∃ out,
        sh (log ++ "xrandr --listmonitors" :: (deleteCommands output).take i)
          ((deleteCommands output).getD i "") = Except.ok out) →
      sh (log ++ "xrandr --listmonitors" :: (deleteCommands output).take k)
        ((deleteCommands output).getD k "") = Except.error err →
      ResetAllScreens sh log = some (Except.error err,
        log ++ "xrandr --listmonitors" :: (deleteCommands output).take (k + 1))) ∧
    ((∀ i, i < (deleteCommands output).length → ∃ out,
        sh (log ++ "xrandr --listmonitors" :: (deleteCommands output).take i)
          ((deleteCommands output).getD i "") = Except.ok out) →
      ResetAllScreens sh log = some (Except.ok (),
        log ++ "xrandr --listmonitors" :: deleteCommands output)) := by
  have hloop := resetAllLoop_eq sh (Split output (Char.ofNat 10))
    (log ++ ["xrandr --listmonitors"]) hnames
  have hrun : ResetAllScreens sh log = some (runUntilFailure sh (deleteCommands output)
      (log ++ ["xrandr --listmonitors"])) := by
    simp only [ResetAllScreens, RunCommand, hout]
    exact hloop
  constructor
  · intro k err hk hok herr
    rw [hrun, runUntilFailure_first_error sh _ _ k err hk]
    · simp
    · intro i hi
      obtain ⟨o, ho⟩ := hok i hi
      exact ⟨o, by simpa using ho⟩
    · simpa using herr
  · intro hok
    rw [hrun, runUntilFailure_all_ok sh]
    · simp
    · intro i hi
      obtain ⟨o, ho⟩ := hok i hi
      exact ⟨o, by simpa using ho⟩

/-- C7, on a listing of two virtual monitors: two deletes when both succeed,
one when the first fails. -/
theorem ResetAllScreens_deletes_witness :
    deleteCommands twoListing =
      ["xrandr --delmonitor HDMI-1-0", "xrandr --delmonitor HDMI-1-1"] ∧
    ResetAllScreens shTwoListed [] = some (Except.ok (),
      ["xrandr --listmonitors", "xrandr --delmonitor HDMI-1-0",
       "xrandr --delmonitor HDMI-1-1"]) ∧
    ResetAllScreens shTwoListedFail [] = some (Except.error "exit status 1",
      ["xrandr --listmonitors", "xrandr --delmonitor HDMI-1-0"]) := by
  have hcmds : deleteCommands twoListing =
      ["xrandr --delmonitor HDMI-1-0", "xrandr --delmonitor HDMI-1-1"] := by decide
  have hnames : ∀ line ∈ Split twoListing (Char.ofNat 10),
      HasPrefix line " " = true → 2 ≤ (Fields line).length := by decide
  have h1 := (ResetAllScreens_deletes shTwoListed [] twoListing rfl hnames).2
    (fun i _ => by
      unfold shTwoListed
      split <;> exact ⟨_, rfl⟩)
  have h2 := (ResetAllScreens_deletes shTwoListedFail [] twoListing rfl hnames).1 0
    "exit status 1" (by rw [hcmds]; decide) (fun i hi => absurd hi (Nat.not_lt_zero i))
    (by rw [hcmds]; decide)
  rw [hcmds] at h1 h2
  exact ⟨hcmds, h1, h2⟩

/-- C10 fails on the code: an indented line with fewer than two fields makes
`strings.Fields(line)[1]` index out of range (`none` is the panic). -/
theorem ResetAllScreens_index_out_of_range :
    (Fields " 0:").length = 1 ∧ HasPrefix " 0:" " " = true ∧
    ResetAllScreens shShortLine [] = none := by
  decide

/-! ## The regular-expression matcher -/

theorem greedyPlus_run (cls : Char → Bool) (k : List Char → Option MatchResult)
    (ds rest : List Char) (r : MatchResult) (hds : ∀ c ∈ ds, cls c = true)
    (hrest : ∀ c, rest.head? = some c → cls c = false) (hk : k rest = some r) :
    ∀ acc : List Char, acc ++ ds ≠ [] →
      greedyPlus cls k acc (ds ++ rest) = some (String.mk (acc ++ ds) :: r.1, r.2) := by
  induction ds with
  | nil =>
    intro acc hne
    have hacc : acc ≠ [] := by simpa using hne
    cases rest with
    | nil => simp [greedyPlus, hacc, hk]
    | cons c cs =>
      have hc : cls c = false := hrest c rfl
      simp [greedyPlus, hacc, hk, hc]
  | cons d ds ih =>
    intro acc _
    have hd : cls d = true := hds d (List.mem_cons_self _ _)
    have h := ih (fun c hc => hds c (List.mem_cons_of_mem _ hc)) (acc ++ [d]) (by simp)
    rw [List.cons_append, greedyPlus, if_pos hd, h]
    simp

theorem greedyPlus_some (cls : Char → Bool) (k : List Char → Option MatchResult)
    (s : List Char) : ∀ (acc : List Char) (r : MatchResult),
      greedyPlus cls k acc s = some r →
      ∃ ds t r1, k t = some r1 ∧ r = (String.mk (acc ++ ds) :: r1.1, r1.2) ∧
        acc ++ ds ≠ [] ∧ ∀ c ∈ ds, cls c = true := by
  induction s with
  | nil =>
    intro acc r h
    by_cases hacc : acc = []
    · simp [greedyPlus, hacc] at h
    · simp only [greedyPlus, List.isEmpty_eq_true, hacc, if_false, Option.map_eq_some'] at h
      obtain ⟨r1, hr1, rfl⟩ := h
      exact ⟨[], [], r1, hr1, by simp, by simpa using hacc, by simp⟩
  | cons c cs ih =>
    intro acc r h
    have stop : (if acc.isEmpty = true then none
        else (k (c :: cs)).map (fun r => (String.mk acc :: r.1, r.2))) = some r →
        ∃ ds t r1, k t = some r1 ∧ r = (String.mk (acc ++ ds) :: r1.1, r1.2) ∧
          acc ++ ds ≠ [] ∧ ∀ c ∈ ds, cls c = true := by
      intro h
      by_cases hacc : acc = []
      · simp [hacc] at h
      · simp only [List.isEmpty_eq_true, hacc, if_false, Option.map_eq_some'] at h
        obtain ⟨r1, hr1, rfl⟩ := h
        exact ⟨[], c :: cs, r1, hr1, by simp, by simpa using hacc, by simp⟩
    by_cases hc : cls c = true
    · simp only [greedyPlus, hc, if_true] at h
      cases hg : greedyPlus cls k (acc ++ [c]) cs with
      | some r2 =>
        rw [hg] at h
        simp only [Option.some.injEq] at h
        subst h
        obtain ⟨ds, t, r1, hk, hr, _, hds⟩ := ih (acc ++ [c]) r2 hg
        refine ⟨c :: ds, t, r1, hk, by simpa using hr, by simp, ?_⟩
        intro x hx
        rcases List.mem_cons.1 hx with rfl | hx
        · exact hc
        · exact hds x hx
      | none =>
        rw [hg] at h
        exact stop h
    · simp only [greedyPlus, hc, Bool.false_eq_true, if_false] at h
      exact stop h

theorem lazyStar_of_some (cls : Char → Bool) (k : List Char → Option MatchResult)
    (s : List Char) (r : MatchResult) (hk : k s = some r) : lazyStar cls k s = some r := by
  cases s with
  | nil => simpa [lazyStar] using hk
  | cons c cs => simp [lazyStar, hk]

theorem lazyStar_skip (cls : Char → Bool) (k : List Char → Option MatchResult)
    (mid rest : List Char) (hmid : ∀ c ∈ mid, cls c = true)
    (hnone : ∀ j, j < mid.length → k ((mid ++ rest).drop j) = none) :
    lazyStar cls k (mid ++ rest) = lazyStar cls k rest := by
  induction mid with
  | nil => rfl
  | cons c cs ih =>
    have h0 : k (c :: (cs ++ rest)) = none := by simpa using hnone 0 (by simp)
    have hc : cls c = true := hmid c (List.mem_cons_self _ _)
    rw [List.cons_append, lazyStar, h0]
    simp only [hc, if_true]
    apply ih (fun x hx => hmid x (List.mem_cons_of_mem _ hx))
    intro j hj
    simpa using hnone (j + 1) (by simpa using hj)

theorem lazyStar_some (cls : Char → Bool) (k : List Char → Option MatchResult)
    (s : List Char) (r : MatchResult) (h : lazyStar cls k s = some r) :
    ∃ t, k t = some r := by
  induction s with
  | nil => exact ⟨[], by simpa [lazyStar] using h⟩
  | cons c cs ih =>
    simp only [lazyStar] at h
    cases hk : k (c :: cs) with
    | some r2 =>
      rw [hk] at h
      simp only [Option.some.injEq] at h
      exact ⟨c :: cs, by rw [hk, h]⟩
    | none =>
      rw [hk] at h
      by_cases hc : cls c = true
      · simp only [hc, if_true] at h
        exact ih h
      · simp [hc] at h

theorem matchHere_lit (c : Char) (rest : List Item) (s : List Char) :
    matchHere (Item.lit c :: rest) (c :: s) = matchHere rest s := by
  simp [matchHere]

theorem matchHere_capPlus (cls : Char → Bool) (rest : List Item) (ds tail : List Char)
    (r : MatchResult) (hne : ds ≠ []) (hds : ∀ c ∈ ds, cls c = true)
    (htail : ∀ c, tail.head? = some c → cls c = false)
    (hk : matchHere rest tail = some r) :
    matchHere (Item.capPlus cls :: rest) (ds ++ tail) = some (String.mk ds :: r.1, r.2) := by
  have h := greedyPlus_run cls (fun t => matchHere rest t) ds tail r hds htail hk []
    (by simpa using hne)
  simpa [matchHere] using h

theorem matchHere_lazyStar (cls : Char → Bool) (rest : List Item) (mid tail : List Char)
    (r : MatchResult) (hmid : ∀ c ∈ mid, cls c = true)
    (hnone : ∀ j, j < mid.length → matchHere rest ((mid ++ tail).drop j) = none)
    (hk : matchHere rest tail = some r) :
    matchHere (Item.lazyStar cls :: rest) (mid ++ tail) = some r := by
  simp only [matchHere]
  rw [lazyStar_skip cls _ mid tail hmid hnone]
  exact lazyStar_of_some cls _ tail r hk

/-- Every captured group is a non-empty run of characters of its class. -/
theorem matchHere_captures (items : List Item) : ∀ (s : List Char) (r : MatchResult),
    matchHere items s = some r →
    List.Forall₂ (fun cls (cap : String) => cap.data ≠ [] ∧ ∀ c ∈ cap.data, cls c = true)
      (captureClasses items) r.1 := by
  induction items with
  | nil =>
    intro s r h
    simp only [matchHere, Option.some.injEq] at h
    subst h
    exact List.Forall₂.nil
  | cons item rest ih =>
    intro s r h
    cases item with
    | lit c =>
      cases s with
      | nil => simp [matchHere] at h
      | cons d ds =>
        by_cases hd : d = c
        · simp only [matchHere, hd, if_true] at h
          exact ih ds r h
        · simp [matchHere, hd] at h
    | capPlus cls =>
      simp only [matchHere] at h
      obtain ⟨ds, t, r1, hk, rfl, hne, hds⟩ := greedyPlus_some cls _ s [] r h
      exact List.Forall₂.cons ⟨by simpa using hne, by simpa using hds⟩ (ih t r1 hk)
    | lazyStar cls =>
      simp only [matchHere] at h
      obtain ⟨t, hk⟩ := lazyStar_some cls _ s r h
      exact ih t r hk

theorem findFrom_skip (re : List Item) (pre s : List Char)
    (h : ∀ i, i < pre.length → matchHere re ((pre ++ s).drop i) = none) :
    findFrom re (pre ++ s) = findFrom re s := by
  induction pre with
  | nil => rfl
  | cons c cs ih =>
    have h0 : matchHere re (c :: (cs ++ s)) = none := by simpa using h 0 (by simp)
    rw [List.cons_append, findFrom, h0]
    apply ih
    intro i hi
    simpa using h (i + 1) (by simpa using hi)

theorem findFrom_of_some (re : List Item) (s : List Char) (r : MatchResult)
    (h : matchHere re s = some r) : ∃ whole, findFrom re s = whole :: r.1 := by
  cases s with
  | nil => exact ⟨_, by rw [findFrom, h]⟩
  | cons c cs => exact ⟨_, by rw [findFrom, h]⟩

theorem findFrom_cases (re : List Item) (s : List Char) :
    findFrom re s = [] ∨
      ∃ whole t r, matchHere re t = some r ∧ findFrom re s = whole :: r.1 := by
  induction s with
  | nil =>
    cases h : matchHere re [] with
    | none => exact Or.inl (by simp [findFrom, h])
    | some r => exact Or.inr ⟨_, [], r, h, by rw [findFrom, h]⟩
  | cons c cs ih =>
    cases h : matchHere re (c :: cs) with
    | none =>
      simp only [findFrom, h]
      exact ih
    | some r => exact Or.inr ⟨_, c :: cs, r, h, by rw [findFrom, h]⟩

/-- A match of the pattern of the program has six captured groups, all numbers. -/
theorem findFrom_resolution (s : List Char) :
    findFrom resolutionRegexp s = [] ∨
      ∃ whole w h x y pw ph, findFrom resolutionRegexp s = [whole, w, h, x, y, pw, ph] ∧
        isNumber w ∧ isNumber h ∧ isNumber x ∧ isNumber y ∧ isNumber pw ∧ isNumber ph := by
  rcases findFrom_cases resolutionRegexp s with h | ⟨whole, t, r, hm, hf⟩
  · exact Or.inl h
  · right
    have hc := matchHere_captures resolutionRegexp t r hm
    have hcl : captureClasses resolutionRegexp =
        [isDigit, isDigit, isDigit, isDigit, isDigit, isDigit] := rfl
    rw [hcl] at hc
    obtain ⟨caps, rest⟩ := r
    simp only at hc hf
    cases hc with
    | cons h1 hc =>
    cases hc with
    | cons h2 hc =>
    cases hc with
    | cons h3 hc =>
    cases hc with
    | cons h4 hc =>
    cases hc with
    | cons h5 hc =>
    cases hc with
    | cons h6 hc =>
    cases hc
    exact ⟨whole, _, _, _, _, _, _, hf, h1, h2, h3, h4, h5, h6⟩

/-! ## Parsing of the scoped lookup -/

theorem Atoi_isNumber (s : String) (h : isNumber s) :
    Atoi s = if (decimalValue s : Int) ≥ 2 ^ 63 then (2 ^ 63 - 1, some "value out of range")
      else ((decimalValue s : Int), none) := by
  obtain ⟨hne, hd⟩ := h
  cases hs : s.data with
  | nil => exact absurd hs hne
  | cons c cs =>
    have hc : isDigit c = true := hd c (by rw [hs]; exact List.mem_cons_self _ _)
    have h45 : c ≠ Char.ofNat 45 := by
      intro e; rw [e] at hc; exact absurd hc (by decide)
    have h43 : c ≠ Char.ofNat 43 := by
      intro e; rw [e] at hc; exact absurd hc (by decide)
    have hall : (c :: cs).all isDigit = true := by
      rw [List.all_eq_true]; intro x hx; exact hd x (by rw [hs]; exact hx)
    have hval : decimalValue (String.mk (c :: cs)) = decimalValue s := by
      simp only [decimalValue, hs]
    simp only [Atoi, hs, List.head?_cons, Option.some.injEq, h45, h43, or_self, if_false,
      List.isEmpty_cons, hall, Bool.not_true, Bool.or_self, Bool.false_eq_true, hval]

theorem Atoi_isNumber_of_lt (s : String) (h : isNumber s) (hlt : (decimalValue s : Int) < 2 ^ 63) :
    (Atoi s).1 = (decimalValue s : Int) := by
  rw [Atoi_isNumber s h, if_neg (by omega)]

theorem Atoi_isNumber_nonneg (s : String) (h : isNumber s) : 0 ≤ (Atoi s).1 := by
  rw [Atoi_isNumber s h]
  split
  · norm_num
  · exact Int.natCast_nonneg _

theorem matchHere_physicalSize (pw ph post : List Char) (hpw : pw ≠ [])
    (hpwd : ∀ c ∈ pw, isDigit c = true) (hph : ph ≠ []) (hphd : ∀ c ∈ ph, isDigit c = true) :
    matchHere physicalSizePattern
      (pw ++ Char.ofNat 109 :: Char.ofNat 109 :: Char.ofNat 32 :: Char.ofNat 120 ::
        Char.ofNat 32 :: (ph ++ Char.ofNat 109 :: Char.ofNat 109 :: post)) =
      some ([String.mk pw, String.mk ph], post) := by
  unfold physicalSizePattern
  have e1 : matchHere [Item.capPlus isDigit, Item.lit (Char.ofNat 109), Item.lit (Char.ofNat 109)]
      (ph ++ Char.ofNat 109 :: Char.ofNat 109 :: post) = some ([String.mk ph], post) := by
    apply matchHere_capPlus isDigit _ ph _ ([], post) hph hphd
    · intro c hc
      simp only [List.head?_cons, Option.some.injEq] at hc
      subst hc; decide
    · rw [matchHere_lit, matchHere_lit]; rfl
  apply matchHere_capPlus isDigit _ pw _ ([String.mk ph], post) hpw hpwd
  · intro c hc
    simp only [List.head?_cons, Option.some.injEq] at hc
    subst hc; decide
  · rw [matchHere_lit, matchHere_lit, matchHere_lit, matchHere_lit, matchHere_lit]
    exact e1

theorem matchHere_resolution (w h x y mid pw ph post : List Char)
    (hw : w ≠ [] ∧ ∀ c ∈ w, isDigit c = true) (hh : h ≠ [] ∧ ∀ c ∈ h, isDigit c = true)
    (hx : x ≠ [] ∧ ∀ c ∈ x, isDigit c = true) (hy : y ≠ [] ∧ ∀ c ∈ y, isDigit c = true)
    (hpw : pw ≠ [] ∧ ∀ c ∈ pw, isDigit c = true) (hph : ph ≠ [] ∧ ∀ c ∈ ph, isDigit c = true)
    (hmid : ∀ c ∈ mid, notNewline c = true) (hmid0 : mid.head?.map isDigit = some false)
    (hphys : ∀ j, j < mid.length → matchHere physicalSizePattern
      ((mid ++ (pw ++ Char.ofNat 109 :: Char.ofNat 109 :: Char.ofNat 32 :: Char.ofNat 120 ::
        Char.ofNat 32 :: (ph ++ Char.ofNat 109 :: Char.ofNat 109 :: post))).drop j) = none) :
    matchHere resolutionRegexp
      (w ++ Char.ofNat 120 :: (h ++ Char.ofNat 43 :: (x ++ Char.ofNat 43 :: (y ++ (mid ++
        (pw ++ Char.ofNat 109 :: Char.ofNat 109 :: Char.ofNat 32 :: Char.ofNat 120 ::
          Char.ofNat 32 :: (ph ++ Char.ofNat 109 :: Char.ofNat 109 :: post))))))) =
      some ([String.mk w, String.mk h, String.mk x, String.mk y, String.mk pw, String.mk ph],
        post) := by
  have e0 := matchHere_physicalSize pw ph post hpw.1 hpw.2 hph.1 hph.2
  have e1 := matchHere_lazyStar notNewline physicalSizePattern mid _ _ hmid hphys e0
  have hlit : ∀ (n : Nat) (t : List Char) (c : Char),
      (Char.ofNat n :: t).head? = some c → isDigit (Char.ofNat n) = false → isDigit c = false := by
    intro n t c hc hn
    simp only [List.head?_cons, Option.some.injEq] at hc
    subst hc; exact hn
  have e2 := matchHere_capPlus isDigit _ y _ _ hy.1 hy.2 (by
    intro c hc
    cases mid with
    | nil => simp at hmid0
    | cons d ds =>
      simp only [List.cons_append, List.head?_cons, Option.some.injEq] at hc
      subst hc
      simpa using hmid0) e1
  have e3 := matchHere_capPlus isDigit _ x (Char.ofNat 43 :: _) _ hx.1 hx.2
    (fun c hc => hlit 43 _ c hc (by decide)) (by rw [matchHere_lit]; exact e2)
  have e4 := matchHere_capPlus isDigit _ h (Char.ofNat 43 :: _) _ hh.1 hh.2
    (fun c hc => hlit 43 _ c hc (by decide)) (by rw [matchHere_lit]; exact e3)
  have e5 := matchHere_capPlus isDigit _ w (Char.ofNat 120 :: _) _ hw.1 hw.2
    (fun c hc => hlit 120 _ c hc (by decide)) (by rw [matchHere_lit]; exact e4)
  exact e5

theorem GetResolutionAndOffset_of_found (sh : Shell) (name output : String)
    (log : List String) (whole w h x y pw ph : String)
    (hsh : sh log ("xrandr | grep -w '" ++ name ++ " connected'") = Except.ok output)
    (hf : findFrom resolutionRegexp output.data = [whole, w, h, x, y, pw, ph]) :
    GetResolutionAndOffset sh name log = some (Except.ok
      { Name := name, Width := (Atoi w).1, Height := (Atoi h).1,
        PhysicalWidth := (Atoi pw).1, PhysicalHeight := (Atoi ph).1,
        XOffset := (Atoi x).1, YOffset := (Atoi y).1 },
      log ++ ["xrandr | grep -w '" ++ name ++ " connected'"]) := by
  simp [GetResolutionAndOffset, RunCommand, hsh, FindStringSubmatch, hf]

theorem GetResolutionAndOffset_of_not_found (sh : Shell) (name output : String)
    (log : List String)
    (hsh : sh log ("xrandr | grep -w '" ++ name ++ " connected'") = Except.ok output)
    (hf : findFrom resolutionRegexp output.data = []) :
    GetResolutionAndOffset sh name log = some (Except.error "resolution or offset not found",
      log ++ ["xrandr | grep -w '" ++ name ++ " connected'"]) := by
  simp [GetResolutionAndOffset, RunCommand, hsh, FindStringSubmatch, hf]

theorem GetResolutionAndOffset_of_error (sh : Shell) (name err : String) (log : List String)
    (hsh : sh log ("xrandr | grep -w '" ++ name ++ " connected'") = Except.error err) :
    GetResolutionAndOffset sh name log = some (Except.error err,
      log ++ ["xrandr | grep -w '" ++ name ++ " connected'"]) := by
  simp [GetResolutionAndOffset, RunCommand, hsh]

/-- C3 as stated fails: with the text "(10mm x 20mm)" between the offsets and
the physical size 520mm x 290mm, the lazy `.*?` stops at the first size and the
monitor gets the physical size 10 x 20. -/
theorem GetResolutionAndOffset_earlier_size :
    GetResolutionAndOffset (shPrints lineWithEarlierSize) "HDMI-1" [] = some (Except.ok
      { Name := "HDMI-1", Width := 1920, Height := 1080, PhysicalWidth := 10,
        PhysicalHeight := 20, XOffset := 0, YOffset := 0 },
      ["xrandr | grep -w 'HDMI-1 connected'"]) := by
  decide

/-- C3 (amended): when the lookup prints
`<pre><w>x<h>+<x>+<y><mid><pw>mm x <ph>mm<post>`, where the six groups are
numbers below 2^63, no match of the pattern starts at a position of `pre`, and
`mid` is not empty, starts with a character that is not a digit, has no line
feed and no position at which a match of `<digits>mm x <digits>mm` starts,
`GetResolutionAndOffset` returns the monitor of that name with the six values
in their places. -/
theorem GetResolutionAndOffset_parses (sh : Shell) (log : List String)
    (name pre w h x y mid pw ph post : String)
    (hnum : isNumber w ∧ isNumber h ∧ isNumber x ∧ isNumber y ∧ isNumber pw ∧ isNumber ph)
    (hfit : (decimalValue w : Int) < 2 ^ 63 ∧ (decimalValue h : Int) < 2 ^ 63 ∧
      (decimalValue x : Int) < 2 ^ 63 ∧ (decimalValue y : Int) < 2 ^ 63 ∧
      (decimalValue pw : Int) < 2 ^ 63 ∧ (decimalValue ph : Int) < 2 ^ 63)
    (hmid : ∀ c ∈ mid.data, notNewline c = true)
    (hmid0 : mid.data.head?.map isDigit = some false)
    (hphys : ∀ j, j < mid.length → matchHere physicalSizePattern
      ((mid ++ pw ++ "mm x " ++ ph ++ "mm" ++ post).data.drop j) = none)
    (hpre : ∀ i, i < pre.length → matchHere resolutionRegexp
      ((pre ++ w ++ "x" ++ h ++ "+" ++ x ++ "+" ++ y ++ mid ++ pw ++ "mm x " ++ ph ++ "mm" ++
        post).data.drop i) = none)
    (hsh : sh log ("xrandr | grep -w '" ++ name ++ " connected'") = Except.ok
      (pre ++ w ++ "x" ++ h ++ "+" ++ x ++ "+" ++ y ++ mid ++ pw ++ "mm x " ++ ph ++ "mm" ++
        post)) :
    GetResolutionAndOffset sh name log = some (Except.ok
      { Name := name, Width := decimalValue w, Height := decimalValue h,
        PhysicalWidth := decimalValue pw, PhysicalHeight := decimalValue ph,
        XOffset := decimalValue x, YOffset := decimalValue y },
      log ++ ["xrandr | grep -w '" ++ name ++ " connected'"]) := by
  obtain ⟨nw, nh, nx, ny, npw, nph⟩ := hnum
  obtain ⟨fw, fh, fx, fy, fpw, fph⟩ := hfit
  have hdata : (pre ++ w ++ "x" ++ h ++ "+" ++ x ++ "+" ++ y ++ mid ++ pw ++ "mm x " ++ ph ++
      "mm" ++ post).data = pre.data ++ (w.data ++ Char.ofNat 120 :: (h.data ++ Char.ofNat 43 ::
        (x.data ++ Char.ofNat 43 :: (y.data ++ (mid.data ++ (pw.data ++ Char.ofNat 109 ::
          Char.ofNat 109 :: Char.ofNat 32 :: Char.ofNat 120 :: Char.ofNat 32 ::
            (ph.data ++ Char.ofNat 109 :: Char.ofNat 109 :: post.data))))))) := by
    simp only [String.data_append, List.append_assoc]
    rfl
  have hdata2 : (mid ++ pw ++ "mm x " ++ ph ++ "mm" ++ post).data =
      mid.data ++ (pw.data ++ Char.ofNat 109 :: Char.ofNat 109 :: Char.ofNat 32 ::
        Char.ofNat 120 :: Char.ofNat 32 :: (ph.data ++ Char.ofNat 109 :: Char.ofNat 109 ::
          post.data)) := by
    simp only [String.data_append, List.append_assoc]
    rfl
  rw [hdata2] at hphys
  rw [hdata] at hpre
  have hm := matchHere_resolution w.data h.data x.data y.data mid.data pw.data ph.data
    post.data nw nh nx ny npw nph hmid hmid0 hphys
  obtain ⟨whole, hwhole⟩ := findFrom_of_some _ _ _ hm
  have hfind := findFrom_skip resolutionRegexp pre.data _ hpre
  rw [← hdata, hwhole] at hfind
  rw [GetResolutionAndOffset_of_found sh name _ log whole w h x y pw ph hsh hfind,
    Atoi_isNumber_of_lt w nw fw, Atoi_isNumber_of_lt h nh fh, Atoi_isNumber_of_lt x nx fx,
    Atoi_isNumber_of_lt y ny fy, Atoi_isNumber_of_lt pw npw fpw, Atoi_isNumber_of_lt ph nph fph]

set_option maxRecDepth 100000 in
/-- C3 (amended), at the line of the scenario. -/
theorem GetResolutionAndOffset_parses_witness :
    GetResolutionAndOffset
      (shPrints "HDMI-1 connected primary 1920x1080+0+0 (normal) 520mm x 290mm") "HDMI-1" [] =
      some (Except.ok
        { Name := "HDMI-1", Width := 1920, Height := 1080, PhysicalWidth := 520,
          PhysicalHeight := 290, XOffset := 0, YOffset := 0 },
        ["xrandr | grep -w 'HDMI-1 connected'"]) :=
  GetResolutionAndOffset_parses
    (shPrints "HDMI-1 connected primary 1920x1080+0+0 (normal) 520mm x 290mm") []
    "HDMI-1" "HDMI-1 connected primary " "1920" "1080" "0" "0" " (normal) " "520" "290" ""
    (by decide) (by decide) (by decide) (by decide) (by decide) (by decide) rfl

/-- C8 as stated fails: for the lookup output "X connected 0x0+0+0 (normal) 0mm
x 0mm" `GetResolutionAndOffset` returns without error a monitor of width 0, on
which `doSplitScreen` divides by zero (`none` is the panic). -/
theorem GetResolutionAndOffset_zero_width :
    GetResolutionAndOffset (shPrints lineZeroWidth) "X" [] = some (Except.ok
      { Name := "X", Width := 0, Height := 0, PhysicalWidth := 0, PhysicalHeight := 0,
        XOffset := 0, YOffset := 0 }, ["xrandr | grep -w 'X connected'"]) ∧
    doSplitScreen shAllOk
      { Name := "X", Width := 0, Height := 0, PhysicalWidth := 0, PhysicalHeight := 0,
        XOffset := 0, YOffset := 0 } 50 [] = none := by
  decide

/-! ## Discovery -/

theorem parseLookup_of_found (name output whole w h x y pw ph : String)
    (hf : findFrom resolutionRegexp output.data = [whole, w, h, x, y, pw, ph]) :
    parseLookup name output = some
      { Name := name, Width := (Atoi w).1, Height := (Atoi h).1,
        PhysicalWidth := (Atoi pw).1, PhysicalHeight := (Atoi ph).1,
        XOffset := (Atoi x).1, YOffset := (Atoi y).1 } := by
  simp [parseLookup, FindStringSubmatch, hf]

theorem parseLookup_of_not_found (name output : String)
    (hf : findFrom resolutionRegexp output.data = []) : parseLookup name output = none := by
  simp [parseLookup, FindStringSubmatch, hf]

theorem parseLookup_nonneg (name output : String) (m : Monitor)
    (h : parseLookup name output = some m) :
    0 ≤ m.Width ∧ 0 ≤ m.Height ∧ 0 ≤ m.PhysicalWidth ∧ 0 ≤ m.PhysicalHeight := by
  rcases findFrom_resolution output.data with hf | ⟨whole, w, hh, x, y, pw, ph, hf, nw, nh, _, _,
    npw, nph⟩
  · rw [parseLookup_of_not_found name output hf] at h
    exact absurd h (by simp)
  · rw [parseLookup_of_found name output whole w hh x y pw ph hf] at h
    simp only [Option.some.injEq] at h
    subst h
    exact ⟨Atoi_isNumber_nonneg w nw, Atoi_isNumber_nonneg hh nh, Atoi_isNumber_nonneg pw npw,
      Atoi_isNumber_nonneg ph nph⟩

/-- The scoped lookup never panics; it returns a monitor exactly when the
lookup succeeds and its output matches. -/
theorem GetResolutionAndOffset_eq (sh : Shell) (name : String) (log : List String) :
    (∀ m, lookupAt sh log name = some m →
      GetResolutionAndOffset sh name log = some (Except.ok m, log ++ [lookupCommand name])) ∧
    (lookupAt sh log name = none → ∃ err,
      GetResolutionAndOffset sh name log = some (Except.error err, log ++ [lookupCommand name])) := by
  cases hsh : sh log ("xrandr | grep -w '" ++ name ++ " connected'") with
  | error err =>
    have hl : lookupAt sh log name = none := by simp [lookupAt, lookupCommand, hsh]
    constructor
    · intro m hm; rw [hl] at hm; exact absurd hm (by simp)
    · intro _; exact ⟨err, GetResolutionAndOffset_of_error sh name err log hsh⟩
  | ok output =>
    have hl : lookupAt sh log name = parseLookup name output := by
      simp [lookupAt, lookupCommand, hsh]
    rcases findFrom_resolution output.data with hf | ⟨whole, w, h, x, y, pw, ph, hf, _⟩
    · rw [hl, parseLookup_of_not_found name output hf]
      constructor
      · intro m hm; exact absurd hm (by simp)
      · intro _; exact ⟨_, GetResolutionAndOffset_of_not_found sh name output log hsh hf⟩
    · rw [hl, parseLookup_of_found name output whole w h x y pw ph hf]
      constructor
      · intro m hm
        simp only [Option.some.injEq] at hm
        subst hm
        exact GetResolutionAndOffset_of_found sh name output log whole w h x y pw ph hsh hf
      · intro hn; exact absurd hn (by simp)

theorem scanQueryLine_eq (line : String) :
    scanQueryLine line =
      if isCandidate line = true then LineScan.found (firstToken line) else LineScan.skipped := by
  by_cases hc : isCandidate line = true
  · rw [if_pos hc]
    simp only [isCandidate, Bool.and_eq_true, Bool.not_eq_true'] at hc
    exact (scanQueryLine_candidate line hc.1 hc.2).1
  · rw [if_neg hc]
    simp only [isCandidate] at hc
    simp only [scanQueryLine, hc, Bool.false_eq_true, if_false]

theorem discovered_nil (sh : Shell) (log : List String) : discovered sh log [] = [] := by
  simp [discovered]

theorem discovered_cons (sh : Shell) (log : List String) (n : String) (ns : List String) :
    discovered sh log (n :: ns) =
      (lookupAt sh log n).toList ++ discovered sh (log ++ [lookupCommand n]) ns := by
  simp only [discovered, List.inits_cons, List.zip_cons_cons, List.filterMap_cons,
    List.map_nil, List.append_nil, List.zip_map_left, List.filterMap_map]
  have hfun : ((fun p : List String × String =>
        lookupAt sh (log ++ p.1.map lookupCommand) p.2) ∘ Prod.map (fun t => n :: t) id) =
      (fun p : List String × String =>
        lookupAt sh (log ++ [lookupCommand n] ++ p.1.map lookupCommand) p.2) := by
    funext p
    simp [Function.comp, Prod.map]
  rw [hfun]
  cases lookupAt sh log n <;> simp

theorem getMonitorsLoop_eq (sh : Shell) (lines : List String) :
    ∀ (monitors : List Monitor) (log : List String),
      getMonitorsLoop sh lines monitors log = some
        (monitors ++ discovered sh log ((lines.filter isCandidate).map firstToken),
          log ++ ((lines.filter isCandidate).map firstToken).map lookupCommand) := by
  induction lines with
  | nil =>
    intro monitors log
    simp [getMonitorsLoop, discovered_nil]
  | cons line rest ih =>
    intro monitors log
    by_cases hc : isCandidate line = true
    · have hf : List.filter isCandidate (line :: rest) = line :: List.filter isCandidate rest := by
        simp [List.filter, hc]
      rw [hf, List.map_cons, List.map_cons, discovered_cons]
      simp only [getMonitorsLoop, scanQueryLine_eq, hc, if_true]
      obtain ⟨h1, h2⟩ := GetResolutionAndOffset_eq sh (firstToken line) log
      cases hl : lookupAt sh log (firstToken line) with
      | some m =>
        rw [h1 m hl]
        simp only [ih, Option.toList]
        simp
      | none =>
        obtain ⟨err, he⟩ := h2 hl
        rw [he]
        simp only [ih, Option.toList]
        simp
    · have hf : List.filter isCandidate (line :: rest) = List.filter isCandidate rest := by
        simp [List.filter, hc]
      rw [hf]
      simp only [getMonitorsLoop, scanQueryLine_eq, hc, Bool.false_eq_true, if_false]
      exact ih monitors log

theorem GetMonitors_of_query_error (sh : Shell) (log : List String) (err : String)
    (h : sh log "xrandr --query" = Except.error err) :
    GetMonitors sh log = some ([], log ++ ["xrandr --query"]) := by
  simp [GetMonitors, RunCommand, h]

theorem GetMonitors_of_query_ok (sh : Shell) (log : List String) (queryOutput : String)
    (h : sh log "xrandr --query" = Except.ok queryOutput) :
    GetMonitors sh log = some
      (discovered sh (log ++ ["xrandr --query"]) (candidateNames queryOutput),
        log ++ "xrandr --query" :: (candidateNames queryOutput).map lookupCommand) := by
  simp only [GetMonitors, RunCommand, h, getMonitorsLoop_eq, candidateNames]
  simp

theorem GetMonitors_total (sh : Shell) (log : List String) :
    ∃ monitors log1, GetMonitors sh log = some (monitors, log1) := by
  cases h : sh log "xrandr --query" with
  | error err => exact ⟨_, _, GetMonitors_of_query_error sh log err h⟩
  | ok out => exact ⟨_, _, GetMonitors_of_query_ok sh log out h⟩

/-- C4: `GetMonitors` always returns (it never panics).  When the query fails
the result is empty; otherwise the result is the list, in the order of the
candidate lines, of the monitors parsed for exactly the candidate identifiers
whose scoped lookup succeeds and matches the pattern, the lookups being run one
after the other whatever their outcome; without candidate line it is empty. -/
theorem GetMonitors_discovers (sh : Shell) (log : List String) :
    (∃ monitors log1, GetMonitors sh log = some (monitors, log1)) ∧
    (∀ err, sh log "xrandr --query" = Except.error err →
      GetMonitors sh log = some ([], log ++ ["xrandr --query"])) ∧
    (∀ queryOutput, sh log "xrandr --query" = Except.ok queryOutput →
      GetMonitors sh log = some
        (discovered sh (log ++ ["xrandr --query"]) (candidateNames queryOutput),
          log ++ "xrandr --query" :: (candidateNames queryOutput).map lookupCommand) ∧
      (candidateNames queryOutput = [] →
        GetMonitors sh log = some ([], log ++ ["xrandr --query"]))) := by
  refine ⟨GetMonitors_total sh log, GetMonitors_of_query_error sh log,
    fun out h => ⟨GetMonitors_of_query_ok sh log out h, ?_⟩⟩
  intro hnil
  rw [GetMonitors_of_query_ok sh log out h, hnil]
  simp [discovered_nil]

/-- C4, on a query output with a connected and a disconnected output. -/
theorem GetMonitors_discovers_witness :
    candidateNames queryTwoOutputs = ["HDMI-1"] ∧
    GetMonitors shTwoOutputs [] = some ([hdmi1],
      ["xrandr --query", "xrandr | grep -w 'HDMI-1 connected'"]) := by
  have hn : candidateNames queryTwoOutputs = ["HDMI-1"] := by decide
  have h := ((GetMonitors_discovers shTwoOutputs []).2.2 queryTwoOutputs rfl).1
  rw [hn] at h
  refine ⟨hn, ?_⟩
  rw [h]
  decide

theorem discovered_mem (sh : Shell) (log : List String) (names : List String) (m : Monitor)
    (h : m ∈ discovered sh log names) : ∃ name output, parseLookup name output = some m := by
  simp only [discovered, List.mem_filterMap] at h
  obtain ⟨p, _, hp⟩ := h
  simp only [lookupAt] at hp
  cases hsh : sh (log ++ p.1.map lookupCommand) (lookupCommand p.2) with
  | error err => rw [hsh] at hp; exact absurd hp (by simp)
  | ok output => rw [hsh] at hp; exact ⟨_, _, hp⟩

/-- C8 (amended): every monitor that
`GetResolutionAndOffset` returns without error, and every element of the
result of `GetMonitors`, has non-negative Width, Height, PhysicalWidth and
PhysicalHeight; `doSplitScreen` does not divide by zero on a discovered
monitor whose Width is not 0. -/
theorem discovered_monitor_nonneg (sh : Shell) (log : List String) :
    (∀ name m log1, GetResolutionAndOffset sh name log = some (Except.ok m, log1) →
      0 ≤ m.Width ∧ 0 ≤ m.Height ∧ 0 ≤ m.PhysicalWidth ∧ 0 ≤ m.PhysicalHeight) ∧
    (∀ monitors log1, GetMonitors sh log = some (monitors, log1) → ∀ m ∈ monitors,
      0 ≤ m.Width ∧ 0 ≤ m.Height ∧ 0 ≤ m.PhysicalWidth ∧ 0 ≤ m.PhysicalHeight ∧
      (m.Width ≠ 0 → ∀ (sh2 : Shell) (p : Int) (log2 : List String),
        (doSplitScreen sh2 m p log2).isSome = true)) := by
  constructor
  · intro name m log1 h
    obtain ⟨h1, h2⟩ := GetResolutionAndOffset_eq sh name log
    cases hl : lookupAt sh log name with
    | none =>
      obtain ⟨err, he⟩ := h2 hl
      rw [he] at h
      simp at h
    | some m2 =>
      rw [h1 m2 hl] at h
      simp only [Option.some.injEq, Prod.mk.injEq, Except.ok.injEq] at h
      obtain ⟨rfl, _⟩ := h
      simp only [lookupAt] at hl
      cases hsh : sh log (lookupCommand name) with
      | error err => rw [hsh] at hl; exact absurd hl (by simp)
      | ok output => rw [hsh] at hl; exact parseLookup_nonneg name output m2 hl
  · intro monitors log1 h m hm
    have hmem : ∃ name output, parseLookup name output = some m := by
      cases hq : sh log "xrandr --query" with
      | error err =>
        rw [GetMonitors_of_query_error sh log err hq] at h
        simp only [Option.some.injEq, Prod.mk.injEq] at h
        rw [← h.1] at hm
        exact absurd hm (by simp)
      | ok out =>
        rw [GetMonitors_of_query_ok sh log out hq] at h
        simp only [Option.some.injEq, Prod.mk.injEq] at h
        rw [← h.1] at hm
        exact discovered_mem sh _ _ m hm
    obtain ⟨name, output, hp⟩ := hmem
    obtain ⟨a, b, c, d⟩ := parseLookup_nonneg name output m hp
    refine ⟨a, b, c, d, ?_⟩
    intro hW sh2 p log2
    simp only [doSplitScreen, splitWidths_eq m p hW, RunCommand]
    cases sh2 log2 (leftCmd m _) <;> rfl

/-- C8 (amended), at the output of the scenario. -/
theorem discovered_monitor_nonneg_witness :
    (0 : Int) ≤ hdmi1.Width ∧ (0 : Int) ≤ hdmi1.Height ∧ (0 : Int) ≤ hdmi1.PhysicalWidth ∧
    (0 : Int) ≤ hdmi1.PhysicalHeight ∧
    (hdmi1.Width ≠ 0 → ∀ (sh2 : Shell) (p : Int) (log2 : List String),
      (doSplitScreen sh2 hdmi1 p log2).isSome = true) :=
  (discovered_monitor_nonneg shTwoOutputs []).2 [hdmi1]
    ["xrandr --query", "xrandr | grep -w 'HDMI-1 connected'"] (by decide) hdmi1
    (List.mem_singleton.2 rfl)

/-! ## Reset of one screen -/

theorem splitOnElem_of_not_mem {α : Type} [DecidableEq α] (sep : α) (w : List α)
    (h : sep ∉ w) : splitOnElem sep w = [w] := by
  induction w with
  | nil => rfl
  | cons c cs ih =>
    have hc : c ≠ sep := fun e => h (by rw [e]; exact List.mem_cons_self _ _)
    have hcs : sep ∉ cs := fun hm => h (List.mem_cons_of_mem _ hm)
    simp [splitOnElem, hc, ih hcs]

theorem splitOnElem_append {α : Type} [DecidableEq α] (sep : α) (w rest : List α)
    (h : sep ∉ w) : splitOnElem sep (w ++ sep :: rest) = w :: splitOnElem sep rest := by
  induction w with
  | nil => simp [splitOnElem]
  | cons c cs ih =>
    have hc : c ≠ sep := fun e => h (by rw [e]; exact List.mem_cons_self _ _)
    have hcs : sep ∉ cs := fun hm => h (List.mem_cons_of_mem _ hm)
    simp [splitOnElem, hc, ih hcs]

theorem isPlainWord_append (w v : List Char) (hw : isPlainWord w = true)
    (hv : v.all isPlainChar = true) : isPlainWord (w ++ v) = true := by
  simp only [isPlainWord, Bool.and_eq_true, Bool.not_eq_true', List.isEmpty_eq_false,
    List.all_eq_true] at hw ⊢
  simp only [List.all_eq_true] at hv
  constructor
  · simpa using fun h => absurd h hw.1
  · intro c hc
    rcases List.mem_append.1 hc with h | h
    · exact hw.2 c h
    · exact hv c h

theorem not_mem_of_isPlainWord (w : List Char) (c : Char) (hw : isPlainWord w = true)
    (hc : isPlainChar c = false) : c ∉ w := by
  simp only [isPlainWord, Bool.and_eq_true, List.all_eq_true] at hw
  intro hm
  rw [hw.2 c hm] at hc
  exact absurd hc (by simp)

/-- The command line of the handler is read by `sh` as the AND-list of the two
deletions. -/
theorem parseAndList_reset (name : String) (hname : isPlainWord name.data = true) :
    parseAndList ("xrandr --delmonitor " ++ name ++ "-0 && xrandr --delmonitor " ++ name ++
      "-1") = some ["xrandr --delmonitor " ++ name ++ "-0",
        "xrandr --delmonitor " ++ name ++ "-1"] := by
  have h0 : isPlainWord (name.data ++ "-0".data) = true :=
    isPlainWord_append _ _ hname (by decide)
  have h1 : isPlainWord (name.data ++ "-1".data) = true :=
    isPlainWord_append _ _ hname (by decide)
  have s0 : Char.ofNat 32 ∉ name.data ++ "-0".data :=
    not_mem_of_isPlainWord _ _ h0 (by decide)
  have s1 : Char.ofNat 32 ∉ name.data ++ "-1".data :=
    not_mem_of_isPlainWord _ _ h1 (by decide)
  have a0 : name.data ++ "-0".data ≠ "&&".data := by
    intro e
    exact not_mem_of_isPlainWord _ (Char.ofNat 38) h0 (by decide) (by rw [e]; decide)
  have a1 : name.data ++ "-1".data ≠ "&&".data := by
    intro e
    exact not_mem_of_isPlainWord _ (Char.ofNat 38) h1 (by decide) (by rw [e]; decide)
  have hdata : ("xrandr --delmonitor " ++ name ++ "-0 && xrandr --delmonitor " ++ name ++
      "-1").data = "xrandr".data ++ Char.ofNat 32 :: ("--delmonitor".data ++ Char.ofNat 32 ::
        ((name.data ++ "-0".data) ++ Char.ofNat 32 :: ("&&".data ++ Char.ofNat 32 ::
          ("xrandr".data ++ Char.ofNat 32 :: ("--delmonitor".data ++ Char.ofNat 32 ::
            (name.data ++ "-1".data)))))) := by
    simp only [String.data_append, List.append_assoc]
    rfl
  have hwords : splitOnElem (Char.ofNat 32) ("xrandr --delmonitor " ++ name ++
      "-0 && xrandr --delmonitor " ++ name ++ "-1").data =
      ["xrandr".data, "--delmonitor".data, name.data ++ "-0".data, "&&".data, "xrandr".data,
        "--delmonitor".data, name.data ++ "-1".data] := by
    rw [hdata, splitOnElem_append _ _ _ (by decide), splitOnElem_append _ _ _ (by decide),
      splitOnElem_append _ _ _ s0, splitOnElem_append _ _ _ (by decide),
      splitOnElem_append _ _ _ (by decide), splitOnElem_append _ _ _ (by decide),
      splitOnElem_of_not_mem _ _ s1]
  have hx : "xrandr".data ≠ "&&".data := by decide
  have hd : "--delmonitor".data ≠ "&&".data := by decide
  have hgroups : splitOnElem "&&".data ["xrandr".data, "--delmonitor".data,
      name.data ++ "-0".data, "&&".data, "xrandr".data, "--delmonitor".data,
      name.data ++ "-1".data] =
      [["xrandr".data, "--delmonitor".data, name.data ++ "-0".data],
        ["xrandr".data, "--delmonitor".data, name.data ++ "-1".data]] := by
    simp [splitOnElem, hx, hd, a0, a1]
  have px : isPlainWord "xrandr".data = true := by decide
  have pd : isPlainWord "--delmonitor".data = true := by decide
  have e0 : String.mk ([Char.ofNat 32].intercalate
      ["xrandr".data, "--delmonitor".data, name.data ++ "-0".data]) =
      "xrandr --delmonitor " ++ name ++ "-0" := by
    apply String.ext
    simp only [String.data_append, List.append_assoc]
    simp [List.intercalate, List.intersperse]
  have e1 : String.mk ([Char.ofNat 32].intercalate
      ["xrandr".data, "--delmonitor".data, name.data ++ "-1".data]) =
      "xrandr --delmonitor " ++ name ++ "-1" := by
    apply String.ext
    simp only [String.data_append, List.append_assoc]
    simp [List.intercalate, List.intersperse]
  simp only [parseAndList, hwords, hgroups, List.all_cons, List.all_nil, List.head?_cons,
    beq_self_eq_true, px, pd, h0, h1, Bool.and_self, if_true, List.map_cons, List.map_nil,
    e0, e1]

theorem attempts_append (tool : Shell) (log : List String) (cmd : String) :
    attempts tool (log ++ [cmd]) = (shEval tool cmd (attempts tool log)).2 := by
  simp [attempts, List.foldl_append]

/-- C9 as stated fails: with the name HDMI-1 and a tool for which the deletion
of HDMI-1-0 fails, the handler runs the one command line of the two deletions
joined by `&&`, and `sh` attempts the deletion of HDMI-1-0 only. -/
theorem resetButton_second_not_attempted :
    resetButton (viaSh toolFirstDeleteFails) "HDMI-1" [] = some (none,
      ["xrandr --delmonitor HDMI-1-0 && xrandr --delmonitor HDMI-1-1"]) ∧
    attempts toolFirstDeleteFails
      ["xrandr --delmonitor HDMI-1-0 && xrandr --delmonitor HDMI-1-1"] =
      ["xrandr --delmonitor HDMI-1-0"] := by
  decide

/-- C9 (amended): for a selected name that is a non-empty word of letters,
digits, `-`, `_` and `.`, the handler runs the single command line
`xrandr --delmonitor <name>-0 && xrandr --delmonitor <name>-1`.  Running it,
`sh` always attempts the deletion of `<name>-0`; when that fails, the deletion
of `<name>-1` is not attempted and the handler runs nothing else; when it
succeeds, the deletion of `<name>-1` is attempted next, and the handler
discovers the monitors again if that succeeds too and runs nothing else if
not. -/
theorem resetButton_attempts (tool : Shell) (name : String) (log : List String)
    (hname : isPlainWord name.data = true) :
    (∀ err, tool (attempts tool log) ("xrandr --delmonitor " ++ name ++ "-0") =
        Except.error err →
      resetButton (viaSh tool) name log = some (none,
        log ++ ["xrandr --delmonitor " ++ name ++ "-0 && xrandr --delmonitor " ++ name ++
          "-1"]) ∧
      attempts tool (log ++ ["xrandr --delmonitor " ++ name ++
        "-0 && xrandr --delmonitor " ++ name ++ "-1"]) =
        attempts tool log ++ ["xrandr --delmonitor " ++ name ++ "-0"]) ∧
    (∀ out, tool (attempts tool log) ("xrandr --delmonitor " ++ name ++ "-0") =
        Except.ok out →
      attempts tool (log ++ ["xrandr --delmonitor " ++ name ++
        "-0 && xrandr --delmonitor " ++ name ++ "-1"]) =
        attempts tool log ++ ["xrandr --delmonitor " ++ name ++ "-0",
          "xrandr --delmonitor " ++ name ++ "-1"] ∧
      (∀ err, tool (attempts tool log ++ ["xrandr --delmonitor " ++ name ++ "-0"])
          ("xrandr --delmonitor " ++ name ++ "-1") = Except.error err →
        resetButton (viaSh tool) name log = some (none,
          log ++ ["xrandr --delmonitor " ++ name ++ "-0 && xrandr --delmonitor " ++ name ++
            "-1"])) ∧
      (∀ out1, tool (attempts tool log ++ ["xrandr --delmonitor " ++ name ++ "-0"])
          ("xrandr --delmonitor " ++ name ++ "-1") = Except.ok out1 →
        ∃ monitors log2,
          GetMonitors (viaSh tool) (log ++ ["xrandr --delmonitor " ++ name ++
            "-0 && xrandr --delmonitor " ++ name ++ "-1"]) = some (monitors, log2) ∧
          resetButton (viaSh tool) name log = some (some monitors, log2))) := by
  have hne : name ≠ "" := by
    intro e
    rw [e] at hname
    exact absurd hname (by decide)
  have hparse := parseAndList_reset name hname
  constructor
  · intro err h
    constructor
    · simp [resetButton, hne, RunCommand, viaSh, shEval, hparse, runAndList, h]
    · rw [attempts_append]
      simp [shEval, hparse, runAndList, h]
  · intro out h
    refine ⟨?_, ?_, ?_⟩
    · rw [attempts_append]
      simp only [shEval, hparse, runAndList, h]
      cases tool (attempts tool log ++ ["xrandr --delmonitor " ++ name ++ "-0"])
        ("xrandr --delmonitor " ++ name ++ "-1") <;> simp
    · intro err h2
      simp [resetButton, hne, RunCommand, viaSh, shEval, hparse, runAndList, h, h2]
    · intro out1 h2
      obtain ⟨monitors, log2, hg⟩ := GetMonitors_total (viaSh tool)
        (log ++ ["xrandr --delmonitor " ++ name ++ "-0 && xrandr --delmonitor " ++ name ++ "-1"])
      refine ⟨monitors, log2, hg, ?_⟩
      have hsh : viaSh tool log ("xrandr --delmonitor " ++ name ++
          "-0 && xrandr --delmonitor " ++ name ++ "-1") = Except.ok (out ++ out1) := by
        simp [viaSh, shEval, hparse, runAndList, h, h2]
      simp only [resetButton, hne, if_false, RunCommand, hsh, hg]

/-- C9 (amended), at the name HDMI-1: both deletions are attempted when the
first succeeds, and only the first when it fails. -/
theorem resetButton_attempts_witness :
    attempts shAllOk ["xrandr --delmonitor HDMI-1-0 && xrandr --delmonitor HDMI-1-1"] =
      ["xrandr --delmonitor HDMI-1-0", "xrandr --delmonitor HDMI-1-1"] ∧
    attempts shAllFail ["xrandr --delmonitor HDMI-1-0 && xrandr --delmonitor HDMI-1-1"] =
      ["xrandr --delmonitor HDMI-1-0"] ∧
    resetButton (viaSh shAllFail) "HDMI-1" [] = some (none,
      ["xrandr --delmonitor HDMI-1-0 && xrandr --delmonitor HDMI-1-1"]) :=
  ⟨((resetButton_attempts shAllOk "HDMI-1" [] (by decide)).2 "" rfl).1,
    ((resetButton_attempts shAllFail "HDMI-1" [] (by decide)).1 "exit status 1" rfl).2,
    ((resetButton_attempts shAllFail "HDMI-1" [] (by decide)).1 "exit status 1" rfl).1⟩

end Xplit
